import Mathlib

/-!
# Verification of the redsift/spf SPF engine against its specification

This file shallowly embeds the core of the `redsift/spf` Go repository
(RFC 7208 SPF policy evaluation) into Lean 4 and proves, or refutes,
a fixed list of claims made by the natural-language specification.

Modelling conventions:
* Go strings are byte sequences; we model them as `List Nat` (each element a
  byte value).  `len`, indexing and slicing are byte based, exactly as in Go.
* Go multi-value returns `(a, b, err)` are modelled as tuples whose last
  component is `Option Err`.
* Go interfaces (`Resolver`) are modelled by a record of response tables
  (`DNSEnv`); the `MatchIP` / `MatchMX` iteration over the looked-up
  addresses is modelled per the documented Resolver contract.
* The mutable visited-domain stack (`stringsStack`) shared across recursive
  `checkHost` frames is threaded through every function that may touch it,
  mirroring the by-reference mutation in Go.
* Unbounded recursion (`checkHost` ↔ `parseInclude`/`handleRedirect`) is
  modelled with a fuel parameter; `checkHost fuel` at fuel `0` returns a
  designated `outOfFuel` error.  Every other engine function takes the
  recursive entry point as an explicit argument `rec`.
* Listener callbacks (`fire*`) have no semantic effect on the evaluation
  result (they are nil-guarded notifications in Go) and are omitted.
-/

set_option maxRecDepth 10000

deriving instance DecidableEq for Except

namespace Spf

/-- Go byte. -/
abbrev Byte := Nat

/-- A Go string, as its byte sequence. -/
abbrev GoStr := List Byte

/-- Byte sequence of an ASCII Lean string literal (all literals used in the
source are ASCII, where UTF-8 bytes and code points coincide). -/
def gs (s : String) : GoStr := s.data.map Char.toNat

/-- Go `len(s)`. -/
def strLen (s : GoStr) : Nat := s.length

/-- Go `s[i]` (byte indexing; callers in the embedded code only index in
range, out-of-range reads - a Go panic - are given the harmless value 0). -/
def strIdx (s : GoStr) (i : Nat) : Byte := s.getD i 0

/-- Go `s[a:b]`. -/
def strSlice (s : GoStr) (a b : Nat) : GoStr := (s.drop a).take (b - a)

/-- Go `s[a:]`. -/
def strFrom (s : GoStr) (a : Nat) : GoStr := s.drop a

/-- Go `strings.HasPrefix`. -/
def goHasPrefix (s pre : GoStr) : Bool := pre.isPrefixOf s

/-- Go `strings.HasSuffix`. -/
def goHasSuffix (s suf : GoStr) : Bool := suf.isSuffixOf s

/-- ASCII lower-casing of one byte (model of Unicode simple fold restricted to
ASCII; every byte the embedded code ever folds is ASCII). -/
def foldByte (b : Byte) : Byte := if 65 ≤ b ∧ b ≤ 90 then b + 32 else b

/-- Model of Go `strings.EqualFold`, with ASCII-only case folding. -/
def goEqualFold (a b : GoStr) : Bool := a.map foldByte == b.map foldByte

/-- Model of Go `strings.ToLower`, with ASCII-only case folding. -/
def goToLower (s : GoStr) : GoStr := s.map foldByte

/-- Model of Go `unicode/utf8.DecodeRuneInString` on a byte sequence: returns
(rune, size).  Empty input gives `(RuneError, 0)`, invalid encodings give
`(RuneError, 1)`, per the Go documentation. -/
def decodeRune : GoStr → Nat × Nat
  | [] => (65533, 0)
  | b0 :: rest =>
    if b0 < 0x80 then (b0, 1)
    else if 0xC2 ≤ b0 ∧ b0 ≤ 0xDF then
      match rest with
      | b1 :: _ =>
        if 0x80 ≤ b1 ∧ b1 ≤ 0xBF then (((b0 - 0xC0) * 64 + (b1 - 0x80)), 2)
        else (65533, 1)
      | _ => (65533, 1)
    else if 0xE0 ≤ b0 ∧ b0 ≤ 0xEF then
      match rest with
      | b1 :: b2 :: _ =>
        let lo1 := if b0 = 0xE0 then 0xA0 else 0x80
        let hi1 := if b0 = 0xED then 0x9F else 0xBF
        if lo1 ≤ b1 ∧ b1 ≤ hi1 ∧ 0x80 ≤ b2 ∧ b2 ≤ 0xBF then
          (((b0 - 0xE0) * 4096 + (b1 - 0x80) * 64 + (b2 - 0x80)), 3)
        else (65533, 1)
      | _ => (65533, 1)
    else if 0xF0 ≤ b0 ∧ b0 ≤ 0xF4 then
      match rest with
      | b1 :: b2 :: b3 :: _ =>
        let lo1 := if b0 = 0xF0 then 0x90 else 0x80
        let hi1 := if b0 = 0xF4 then 0x8F else 0xBF
        if lo1 ≤ b1 ∧ b1 ≤ hi1 ∧ 0x80 ≤ b2 ∧ b2 ≤ 0xBF ∧ 0x80 ≤ b3 ∧ b3 ≤ 0xBF then
          (((b0 - 0xF0) * 262144 + (b1 - 0x80) * 4096 + (b2 - 0x80) * 64 + (b3 - 0x80)), 4)
        else (65533, 1)
      | _ => (65533, 1)
    else (65533, 1)

/-! ## Result and error taxonomy (`spf.go`, `spferr/err.go`) -/

/-- `spferr.Kind`. -/
inductive Kind where
  | unknown | kSyntax | validation | dns
  deriving DecidableEq, Repr

/-- `spf.Result` (the iota values of the Go source, including the two
engine-internal results). -/
inductive Result where
  | None | Neutral | Pass | Fail | Softfail | Temperror | Permerror
  | unreliableResult | internalError
  deriving DecidableEq, Repr

/-! ## Token model (`token.go`)

`tokenType` is a Go `int` with iota ordering; range comparisons
(`isMechanism`, `isModifier`) depend on the numeric values, so we keep it as
`Nat` with the exact iota constants. -/

abbrev tokenType := Nat

def tEOF : tokenType := 0
def tErr : tokenType := 1
def mechanismBeg : tokenType := 2
def tVersion : tokenType := 3
def tAll : tokenType := 4
def tA : tokenType := 5
def tIP4 : tokenType := 6
def tIP6 : tokenType := 7
def tMX : tokenType := 8
def tPTR : tokenType := 9
def tInclude : tokenType := 10
def tExists : tokenType := 11
def mechanismEnd : tokenType := 12
def modifierBeg : tokenType := 13
def tRedirect : tokenType := 14
def tExp : tokenType := 15
def tUnknownModifier : tokenType := 16
def modifierEnd : tokenType := 17
def qPlus : tokenType := 19
def qMinus : tokenType := 20
def qTilde : tokenType := 21
def qQuestionMark : tokenType := 22
def qErr : tokenType := 23

/-- `tokenType.isMechanism`. -/
def isMechanism (tok : tokenType) : Bool := mechanismBeg < tok && tok < mechanismEnd

/-- `tokenType.isModifier`. -/
def isModifier (tok : tokenType) : Bool := modifierBeg < tok && tok < modifierEnd

/-- `token`: an SPF term. -/
structure Token where
  mechanism : tokenType
  qualifier : tokenType
  key : GoStr
  value : GoStr
  deriving DecidableEq, Repr

/-- `token.isErr`. -/
def Token.isErr (t : Token) : Bool := t.mechanism == tErr || t.qualifier == qErr

/-- The engine's error values.  Go errors are interface values; the embedded
engine only ever constructs the sentinel errors of `spf.go`, the structured
`DomainError`s, macro/lexer syntax errors, and the wrapping `SpfError`; one
constructor stands for each.  `outOfFuel` is the out-of-fuel marker of the
fuel-based embedding of the unbounded `checkHost` recursion; no theorem
below concerns it. -/
inductive Err where
  | dnsTemperror
  | dnsPermerror
  | dnsLimitExceeded
  | dnsVoidLookupLimitExceeded
  | spfNotFound (domain : GoStr)
  | invalidCIDRLength
  | tooManySPFRecords (domain : GoStr) (policies : List GoStr)
  | tooManyRedirects
  | tooManyExps
  | syntaxError
  | emptyDomain
  | notIPv4
  | notIPv6
  | loopDetected
  | unreliableResultErr
  | tooManyErrors
  | invalidDomain (domain : GoStr)
  | missingMacros (domain : GoStr) (macros : List GoStr)
  | invalidVersion (v : GoStr)
  | invalidQualifier
  | unknownResult
  | macroUnexpectedEof
  | macroForbiddenChar (r : Nat)
  | wrongMacroSyntax (inner : Err)
  | macroUnexpectedChar (r : Nat)
  | macroLetterOnlyInExp (letter : Nat)
  | atoiError
  | spf (kind : Kind) (tok : Option Token) (inner : Err)
  | outOfFuel
  deriving DecidableEq, Repr

/-- `NewSpfError`. -/
def NewSpfError (k : Kind) (e : Err) (t : Option Token) : Err := .spf k t e

/-- `wrap` (parser.go): re-wraps preserving the original error kind. -/
def wrapErr (t : Token) (err : Err) : Err :=
  match err with
  | .spf k tok inner => NewSpfError k (.spf k tok inner) (some t)
  | e => NewSpfError .kSyntax e (some t)

/-- `SpfError.Kind` of a wrapped error (`KindUnknown` for sentinels, as for a
non-`SpfError` Go error the engine re-wraps with `KindSyntax`; only used via
`wrapErr`). -/
def errKind : Err → Kind
  | .spf k _ _ => k
  | _ => .unknown

/-! ## Record selector (`spf_filter.go`) -/

/-- `HasSPFPrefix`: strict RFC 7208 policy test - exactly `v=spf1`, or
`v=spf1` followed by a space or tab. -/
def HasSPFPrefix (s : GoStr) : Bool :=
  if strLen s < 6 then false
  else if strLen s == 6 then s == gs "v=spf1"
  else if strIdx s 6 != 32 && strIdx s 6 != 9 then false
  else goHasPrefix s (gs "v=spf1")

/-- The cut set `"=:vV \t"` of the `strings.IndexAny` call in
`IsSPFCandidate`. -/
def iscCutSet (b : Byte) : Bool :=
  b == 61 || b == 58 || b == 118 || b == 86 || b == 32 || b == 9

/-- Model of `strings.IndexAny(s, "=:vV \t")`: index of the first byte in the
cut set (the cut set is all-ASCII, for which Go scans bytewise). -/
def goIndexAnyISC : GoStr → Option Nat
  | [] => none
  | b :: rest =>
    if iscCutSet b then some 0
    else (goIndexAnyISC rest).map (· + 1)

/-- `skipWhitespace` (spf_filter.go) inner loop: advance `i` past spaces and
tabs while `i < maxIdx`.  Structural fuel recursion; fuel `maxIdx - i` is
exact, so running out of fuel coincides with the loop guard failing. -/
def skipWSLoop (s : GoStr) : Nat → Nat → Nat → Nat
  | 0, i, _ => i
  | fuel + 1, i, maxIdx =>
    if i < maxIdx && (strIdx s i == 32 || strIdx s i == 9) then
      skipWSLoop s fuel (i + 1) maxIdx
    else i

/-- `skipWhitespace` (spf_filter.go): `none` models the `-1` return. -/
def skipWhitespace (s : GoStr) (start maxIdx0 : Nat) : Option Nat :=
  let maxIdx := min maxIdx0 (strLen s)
  let i := skipWSLoop s (maxIdx - start) start maxIdx
  if i > maxIdx then none else some i

/-- `hasPrefixFold(s, "spf")`. -/
def hasPrefixFold (s pre : GoStr) : Bool :=
  if strLen s < strLen pre then false
  else goEqualFold (strSlice s 0 (strLen pre)) pre

/-- The state loop of `IsSPFCandidate`.  States: 0 = StateInit, 1 = StateV,
2 = StateSep, 3 = StateSPF.  Every iteration advances `i` by at least one
byte, so fuel `length + 2` (set by `IsSPFCandidate`) never runs out while the
Go loop would still be running. -/
def iscLoop (s : GoStr) (length : Nat) : Nat → Nat → Nat → Bool
  | 0, _, _ => false
  | fuel + 1, i, state =>
    if i ≤ length then
      match state with
      | 0 =>
        match goIndexAnyISC (strFrom s i) with
        | none => false
        | some next =>
          let i2 := i + next
          let rs := decodeRune (strFrom s i2)
          let st :=
            if rs.1 == 32 || rs.1 == 9 then 1
            else if rs.1 == 61 || rs.1 == 58 then 3
            else if rs.1 == 118 || rs.1 == 86 then 2
            else state
          iscLoop s length fuel (i2 + rs.2) st
      | 1 =>
        match skipWhitespace s i length with
        | none => false
        | some i2 =>
          let rs := decodeRune (strFrom s i2)
          if rs.1 == 61 || rs.1 == 58 then iscLoop s length fuel (i2 + rs.2) 3
          else if rs.1 == 118 || rs.1 == 86 then iscLoop s length fuel (i2 + rs.2) 2
          else iscLoop s length fuel (i2 + rs.2) 0
      | 2 =>
        match skipWhitespace s i length with
        | none => false
        | some i2 =>
          let rs := decodeRune (strFrom s i2)
          if rs.1 == 61 || rs.1 == 58 then iscLoop s length fuel (i2 + rs.2) 3
          else iscLoop s length fuel (i2 + rs.2) 0
      | _ =>
        match skipWhitespace s i length with
        | none => false
        | some i2 =>
          if hasPrefixFold (strFrom s i2) (gs "spf") then true
          else
            let rs := decodeRune (strFrom s i2)
            iscLoop s length fuel (i2 + rs.2) 0
    else false

/-- `IsSPFCandidate`: loose `[WS* v]? WS* (=|:) WS* spf` matcher used as the
candidate pre-filter. -/
def IsSPFCandidate (s : GoStr) : Bool :=
  if strLen s < 4 then false
  else
    let length := strLen s - 4
    iscLoop s length (length + 2) 0 0

/-- `FilterSPFCandidates`: partition TXT strings into loose candidates and
strict policies. -/
def FilterSPFCandidates (lines : List GoStr) : List GoStr × List GoStr :=
  match lines with
  | [] => ([], [])
  | line :: rest =>
    let (candidates, policies) := FilterSPFCandidates rest
    if !IsSPFCandidate line then (candidates, policies)
    else if HasSPFPrefix line then (candidates, line :: policies)
    else (line :: candidates, policies)

/-! ## FQDN utilities (`token.go`) -/

/-- The byte-scanning loop of `isDomainName`, carrying `last`, `ok` and
`partlen` exactly as the Go loop does. -/
def idnLoop : GoStr → Byte → Bool → Nat → Bool
  | [], last, ok, partlen =>
    if last == 45 || partlen > 63 then false else ok
  | c :: rest, last, ok, partlen =>
    if (97 ≤ c ∧ c ≤ 122) ∨ (65 ≤ c ∧ c ≤ 90) ∨ c = 95 then
      idnLoop rest c true (partlen + 1)
    else if 48 ≤ c ∧ c ≤ 57 then
      idnLoop rest c ok (partlen + 1)
    else if c = 45 then
      if last == 46 then false else idnLoop rest c ok (partlen + 1)
    else if c = 46 then
      if last == 46 || last == 45 then false
      else if partlen > 63 || partlen == 0 then false
      else idnLoop rest c ok 0
    else false

/-- `isDomainName` (token.go, copied there from Go's net/dnsclient). -/
def isDomainName (s : GoStr) : Bool :=
  let l := strLen s
  if l == 0 || l > 254 || (l == 254 && strIdx s (l - 1) != 46) then false
  else idnLoop s 46 false 0

/-- `NormalizeFQDN`. -/
def NormalizeFQDN (name : GoStr) : GoStr :=
  if strLen name == 0 then []
  else if strIdx name (strLen name - 1) != 46 then goToLower (name ++ [46])
  else goToLower name

/-- The `for i := 1; i < l; i++ { if s[i-1]=='.' && s[i]=='.' ... }` scan of
`truncateFQDN`'s short branch: true iff two consecutive dots occur. -/
def hasDotDot : GoStr → Bool
  | a :: b :: rest => (a == 46 && b == 46) || hasDotDot (b :: rest)
  | _ => false

/-- The long branch of `truncateFQDN` (`len(s) ≥ 254` and not the
254-with-trailing-dot case).  The Go loop scans exactly the rightmost 253
bytes `t` from right to left:
* a dot seen with `labelLen == 0` - that is, `t` ends in a dot or `t`
  contains two consecutive dots - gives `InvalidDomain`;
* `dot` ends as the absolute position of the leftmost dot of `t` (the scan
  overwrites it right-to-left); no dot at all gives `InvalidDomain`;
* the loop exits with `i = len(s)-254`; if `s[i]` is a dot the result is
  `s[i+1:] = t`, otherwise `s[dot+1:]`. -/
def truncateLong (s : GoStr) : Except Err GoStr :=
  let t := strFrom s (strLen s - 253)
  if hasDotDot t || t.getLast? == some 46 then .error (.invalidDomain s)
  else
    match t.findIdx? (· == 46) with
    | none => .error (.invalidDomain s)
    | some idx =>
      if strIdx s (strLen s - 254) == 46 then .ok t
      else .ok (t.drop (idx + 1))

/-- `truncateFQDN`. -/
def truncateFQDN (s : GoStr) : Except Err GoStr :=
  let l := strLen s
  if l < 254 ∨ (l == 254 ∧ strIdx s (l - 1) == 46) then
    if l == 1 then .ok s
    else if hasDotDot s then .error (.invalidDomain s)
    else .ok s
  else truncateLong s

/-- `removeRoot` (macro.go). -/
def removeRoot (d : GoStr) : GoStr :=
  let l := strLen d
  if l > 0 ∧ strIdx d (l - 1) == 46 then strSlice d 0 (l - 1) else d

/-! ## IP model (Go `net.IP`: a byte slice of length 4 or 16) -/

abbrev IP := List Byte

def v4InV6Prefix : IP := [0, 0, 0, 0, 0, 0, 0, 0, 0, 0, 255, 255]

/-- `net.IP.To4`: `none` models the `nil` return. -/
def ipTo4 (ip : IP) : Option IP :=
  if ip.length == 4 then some ip
  else if ip.length == 16 && ip.take 12 == v4InV6Prefix then some (ip.drop 12)
  else none

/-- `net.IP.To16`. -/
def ipTo16 (ip : IP) : Option IP :=
  if ip.length == 4 then some (v4InV6Prefix ++ ip)
  else if ip.length == 16 then some ip
  else none

/-- `net.IP.Equal`: equal byte-wise, or a 4-byte address equal to its
16-byte IPv4-in-IPv6 form. -/
def ipEqual (x y : IP) : Bool :=
  if x.length == y.length then x == y
  else if x.length == 4 && y.length == 16 then y.take 12 == v4InV6Prefix && y.drop 12 == x
  else if x.length == 16 && y.length == 4 then x.take 12 == v4InV6Prefix && x.drop 12 == y
  else false

/-- Decimal rendering of a natural number. -/
def uintToDec (n : Nat) : GoStr := (Nat.toDigits 10 n).map Char.toNat

/-- `strconv.FormatInt(i, 10)`. -/
def formatInt (i : Int) : GoStr :=
  if i < 0 then 45 :: uintToDec i.natAbs else uintToDec i.toNat

/-- `hexDigit` (macro.go). -/
def hexDigit : GoStr := gs "0123456789abcdef"

/-- `appendHex` (macro.go): hex rendering of one byte, no leading zeros,
transcribing the nibble loop `for j := 7; j >= 0; j--`. -/
def appendHex (i : Byte) : GoStr :=
  if i == 0 then [48]
  else (List.range 8).reverse.filterMap fun j =>
    let v := i >>> (j * 4)
    if v > 0 then some (strIdx hexDigit (v &&& 15)) else none

/-- Hex rendering of one 16-bit group, no leading zeros (Go net `ip.String`
uses the same nibble loop on the group value). -/
def appendHexGroup (g : Nat) : GoStr :=
  if g == 0 then [48]
  else (List.range 8).reverse.filterMap fun j =>
    let v := g >>> (j * 4)
    if v > 0 then some (strIdx hexDigit (v &&& 15)) else none

/-- The eight 16-bit groups of a 16-byte IPv6 address. -/
def v6Groups (ip : IP) : List Nat :=
  (List.range 8).map fun i => strIdx ip (2 * i) * 256 + strIdx ip (2 * i + 1)

/-- Model of the zero-run search in Go net `ip.String`: earliest longest run
of at least two all-zero groups, as `(start, end)` in group units. -/
def bestZeroRun (g : List Nat) : Option (Nat × Nat) :=
  let runLen : Nat → Nat := fun i => ((g.drop i).takeWhile (· == 0)).length
  let best := (List.range 8).foldl
    (fun (acc : Nat × Nat) i =>
      let j := i + runLen i
      if j > i ∧ j - i > acc.2 - acc.1 then (i, j) else acc)
    (0, 0)
  if best.2 - best.1 ≤ 1 then none else some best

/-- IPv6 group rendering with `::` elision. -/
def v6Render (g : List Nat) (run : Option (Nat × Nat)) : GoStr :=
  let rec go (i : Nat) (fuel : Nat) : GoStr :=
    match fuel with
    | 0 => []
    | fuel + 1 =>
      if i ≥ 8 then []
      else match run with
        | some (e0, e1) =>
          if i == e0 then (gs "::") ++ go e1 fuel
          else (if i > 0 ∧ i ≠ e1 then [58] else []) ++ appendHexGroup (g.getD i 0) ++ go (i + 1) fuel
        | none =>
          (if i > 0 then [58] else []) ++ appendHexGroup (g.getD i 0) ++ go (i + 1) fuel
  go 0 9

/-- Model of Go `net.IP.String`: dotted decimal for (v4-in-v6) IPv4, RFC 5952
text for 16-byte IPv6, `<nil>` for empty, `?` marker otherwise. -/
def ipString (ip : IP) : GoStr :=
  if ip.length == 0 then gs "<nil>"
  else match ipTo4 ip with
    | some p4 =>
      List.intercalate [46] (p4.map uintToDec)
    | none =>
      if ip.length ≠ 16 then gs "?" ++ (ip.map appendHex).flatten
      else
        let g := v6Groups ip
        let r := bestZeroRun g
        -- special-case: an address that is all zero groups renders as "::"
        if g.all (· == 0) then gs "::" else v6Render g r

/-- `net.IPv4zero` (= `net.IPv4(0,0,0,0)`, a 16-byte value). -/
def IPv4zero : IP := v4InV6Prefix ++ [0, 0, 0, 0]

/-- `net.IPv6zero`. -/
def IPv6zero : IP := List.replicate 16 0

/-- `toDottedHex` (macro.go): dotted decimal for IPv4; sixteen dot-separated
byte-hex groups for IPv6. -/
def toDottedHex (ip : IP) (isPartial : Bool) : GoStr :=
  if ipTo4 ip ≠ none then
    if isPartial && ipEqual ip IPv4zero then [] else ipString ip
  else if isPartial && ipEqual ip IPv6zero then []
  else List.intercalate [46] ((List.range 16).map fun i => appendHex (strIdx ip i))

/-! ## Evaluation context

The fields of the Go `parser` struct that influence evaluation (resolver and
listener are passed separately; `query` is threaded explicitly). -/

structure Pctx where
  sender : GoStr
  domain : GoStr
  heloDomain : GoStr
  ip : IP
  receivingFQDN : GoStr
  evaluatedOnUnix : Int
  ignoreMatches : Bool
  partialMacros : Bool
  stopAtError : Option (Option Err → Bool)

/-- `addrSpec`.
Modelled from the spec: `parseAddrSpec` is code of this repository missing
from `src/` (only its callers in macro.go are present).  Per spec §4.3,
`%{l}` is "local-part of sender; empty sender → `postmaster`" and `%{o}` is
"domain of sender"; the macro test fixtures show that a sender without
local-part (`example.com`) yields local-part `postmaster` and that
`sender@domain.com` yields domain `domain.com`. -/
structure addrSpec where
  localPart : GoStr
  domain : GoStr

/-- Modelled from the spec: split the sender at its last `@` into local-part
and domain; a sender with no `@` has no local-part, which initial processing
replaces by `postmaster` (RFC 7208 §4.3). -/
def parseAddrSpec (addr : GoStr) (_fallback : GoStr) : addrSpec :=
  match (addr.reverse.findIdx? (· == 64)) with
  | none => { localPart := gs "postmaster", domain := addr }
  | some ridx =>
    let atPos := addr.length - 1 - ridx
    { localPart := addr.take atPos, domain := addr.drop (atPos + 1) }

/-! ## Macro engine (`macro.go`) -/

/-- `isDigit` (lexer.go). -/
def isDigitB (r : Nat) : Bool := 48 ≤ r && r ≤ 57

/-- `isMacroDelimiter`: membership in `".-+,/_="`. -/
def isMacroDelimiter (r : Nat) : Bool :=
  r == 46 || r == 45 || r == 43 || r == 44 || r == 47 || r == 95 || r == 61

/-- The `macro` scanning state. -/
structure MacroSt where
  start : Nat
  pos : Nat
  prev : Nat
  length : Nat
  input : GoStr
  missingMacros : List GoStr
  output : List GoStr
  exp : Bool
  pctPos : Nat

def newMacro (input : GoStr) (exp : Bool) : MacroSt :=
  { start := 0, pos := 0, prev := 0, length := strLen input, input := input,
    missingMacros := [], output := [], exp := exp, pctPos := 0 }

/-- `macro.next()`. -/
def mNext (m : MacroSt) : Except Err (Nat × MacroSt) :=
  if m.pos ≥ m.length then .error .macroUnexpectedEof
  else
    let rs := decodeRune (strFrom m.input m.pos)
    .ok (rs.1, { m with prev := m.pos, pos := m.pos + rs.2 })

/-- `macro.moveon()`. -/
def mMoveon (m : MacroSt) : MacroSt := { m with start := m.pos }

/-- `macro.back()`. -/
def mBack (m : MacroSt) : MacroSt := { m with pos := m.prev }

/-- `macro.collect`. -/
def mCollect (m : MacroSt) (result : GoStr) : MacroSt :=
  { m with output := m.output ++ [result] }

/-- `macro.collectMissingMacros`. -/
def mCollectMissing (m : MacroSt) (mac : GoStr) : MacroSt :=
  if mac == [] then m else { m with missingMacros := m.missingMacros ++ [mac] }

/-- `macro.collectMacroBody`. -/
def mCollectMacroBody (m : MacroSt) : MacroSt :=
  { m with output := m.output ++ [strSlice m.input m.pctPos m.pos] }

/-- `strconv.Atoi`, for the digit runs the macro scanner feeds it (overflow
is not modelled; the engine clamps large cardinalities anyway). -/
def goAtoi (s : GoStr) : Except Err Int :=
  if s ≠ [] ∧ s.all isDigitB then
    .ok (Int.ofNat (s.foldl (fun acc d => acc * 10 + (d - 48)) 0))
  else .error .atoiError

/-- The pure tail of `parseDelimiter` ("handle curItem"): split / reverse /
clamp-cardinality / join.  `delim = 42` (`'*'`) is the "no delimiter given"
marker, `cardinality = -1` the "no cardinality given" marker. -/
def handleItem (value : GoStr) (cardinality : Int) (reversed : Bool) (delim : Nat) : GoStr :=
  let parts :=
    if cardinality > 0 ∨ reversed ∨ delim ≠ 42 then
      let d := if delim == 42 then 46 else delim
      let ps := value.splitOn d
      if reversed then ps.reverse else ps
    else [value]
  let card : Int := if cardinality == -1 then (parts.length : Int) else cardinality
  let card : Int := if card > -1 ∧ card > (parts.length : Int) then (parts.length : Int) else card
  List.intercalate [46] (parts.drop (parts.length - card.toNat))

/-- The digit-scanning loop of `parseDelimiter` / `skipMacroBody`: `next()`
until a non-digit, then `back()`.  Fuel-bounded (each step consumes a byte). -/
def pdDigits : Nat → MacroSt → Except Err MacroSt
  | 0, _ => .error .outOfFuel
  | fuel + 1, m => do
    let (r, m') ← mNext m
    if isDigitB r then pdDigits fuel m' else .ok (mBack m')

/-- The scanning head shared by `parseDelimiter` and `skipMacroBody`: reads
`*DIGIT [r|R] [delimiter]` and requires the next rune to be `}` (position is
then backed onto the `}`).  Returns the parsed cardinality (`-1` if absent),
the `reversed` flag, the delimiter (`'*'` = 42 if absent) and the updated
scanner. -/
def pdScan (m0 : MacroSt) : Except Err (Int × Bool × Nat × MacroSt) := do
  let (r0, m1) ← mNext m0
  let (r2, card, m2) ←
    if isDigitB r0 then do
      let m ← pdDigits (m1.length + 1) (mBack m1)
      let c ← goAtoi (strSlice m.input m.start m.pos)
      let (r, m') ← mNext m
      pure (r, c, m')
    else
      pure (r0, (-1 : Int), m1)
  let (r3, rev, m3) ←
    if r2 == 114 || r2 == 82 then do
      let (r, m') ← mNext m2
      pure (r, true, m')
    else pure (r2, false, m2)
  let (r4, delim, m4) ←
    if isMacroDelimiter r3 then do
      let (r, m') ← mNext m3
      pure (r, r3, m')
    else pure (r3, 42, m3)
  if r4 ≠ 125 then .error (.macroUnexpectedChar r4)
  else .ok (card, rev, delim, mBack m4)

/-- `parseDelimiter` (macro.go): scan the transformer suffix of a macro body
and apply it to the item's value. -/
def parseDelimiter (m : MacroSt) (value : GoStr) : Except Err (GoStr × MacroSt) := do
  let (card, rev, delim, m') ← pdScan m
  .ok (handleItem value card rev delim, m')

/-- `skipMacroBody` (macro.go): same scan, no value handling. -/
def skipMacroBody (m : MacroSt) : Except Err MacroSt := do
  let (_, _, _, m') ← pdScan m
  .ok m'

/-- The macro scanner states (`stateFn` values in Go). -/
inductive MState where
  | text | percent | percentPartial | macroFull | macroPartial
  deriving DecidableEq, Repr

/-- `scanText`: copy literal bytes to the output until `%` or end of input.
Fuel-bounded (each iteration consumes one rune); callers pass
`m.length + 1`, which the internal loop cannot exhaust. -/
def scanText : Nat → Bool → MacroSt → Option MState × MacroSt
  | 0, _, m => (none, m)
  | fuel + 1, partialMacros, m =>
    match mNext m with
    | .error _ =>
      (none, mMoveon { m with output := m.output ++ [strSlice m.input m.start m.pos] })
    | .ok (r, m') =>
      if r == 37 then
        let m2 := { m' with output := m'.output ++ [strSlice m'.input m'.start m'.prev],
                            pctPos := m'.prev }
        (some (if partialMacros then .percentPartial else .percent), mMoveon m2)
      else scanText fuel partialMacros m'

/-- `scanPercent`. -/
def scanPercent (m : MacroSt) : Except Err (MState × MacroSt) := do
  let (r, m') ← mNext m
  if r == 123 then .ok (.macroFull, mMoveon m')
  else if r == 37 then .ok (.text, mMoveon (mCollect m' (gs "%")))
  else if r == 95 then .ok (.text, mMoveon (mCollect m' (gs " ")))
  else if r == 45 then .ok (.text, mMoveon (mCollect m' (gs "%20")))
  else .error (.macroForbiddenChar r)

/-- `scanPercentPartial`. -/
def scanPercentPartial (m : MacroSt) : Except Err (MState × MacroSt) := do
  let (r, m') ← mNext m
  if r == 123 then .ok (.macroPartial, mMoveon m')
  else if r == 37 then .ok (.text, mMoveon (mCollect m' (gs "%%")))
  else if r == 95 then .ok (.text, mMoveon (mCollect m' (gs "%_")))
  else if r == 45 then .ok (.text, mMoveon (mCollect m' (gs "%-")))
  else .error (.macroForbiddenChar r)

/-- The per-letter value/missing-macro computation of `scanMacro`.  Returns
`(result, missingMacro, m)` after the letter's transformer suffix has been
scanned, or the scan error. -/
def scanMacroLetter (m1 : MacroSt) (p : Pctx) (r : Nat) :
    Except Err (GoStr × GoStr × MacroSt) :=
  if r == 115 || r == 83 then   -- 's'
    match parseDelimiter (mMoveon m1) p.sender with
    | .error e => .error (.wrongMacroSyntax e)
    | .ok (res, m2) => .ok (res, if res == [] then gs "sender {s}" else [], m2)
  else if r == 108 || r == 76 then   -- 'l'
    match parseDelimiter (mMoveon m1) (parseAddrSpec p.sender p.sender).localPart with
    | .error e => .error (.wrongMacroSyntax e)
    | .ok (res, m2) => .ok (res, if res == [] then gs "local-part of <sender> {l}" else [], m2)
  else if r == 111 || r == 79 then   -- 'o'
    match parseDelimiter (mMoveon m1) (removeRoot (parseAddrSpec p.sender p.sender).domain) with
    | .error e => .error (.wrongMacroSyntax e)
    | .ok (res, m2) => .ok (res, if res == [] then gs "domain of <sender> {o}" else [], m2)
  else if r == 104 || r == 72 then   -- 'h'
    match parseDelimiter (mMoveon m1) (removeRoot p.heloDomain) with
    | .error e => .error (.wrongMacroSyntax e)
    | .ok (res, m2) => .ok (res, if res == [] then gs "heloDomain {h}" else [], m2)
  else if r == 100 || r == 68 then   -- 'd'
    match parseDelimiter (mMoveon m1) (removeRoot p.domain) with
    | .error e => .error (.wrongMacroSyntax e)
    | .ok (res, m2) => .ok (res, if res == [] then gs "domain {d}" else [], m2)
  else if r == 105 || r == 73 then   -- 'i'
    match parseDelimiter (mMoveon m1) (toDottedHex p.ip false) with
    | .error e => .error (.wrongMacroSyntax e)
    | .ok (res, m2) => .ok (res, if res == [] then gs "ip {i}" else [], m2)
  else if r == 112 || r == 80 then   -- 'p': deliberately unsupported
    .ok ([], [], m1)
  else if r == 118 || r == 86 then   -- 'v'
    .ok (if ipTo4 p.ip == none then gs "ip6" else gs "in-addr", [], m1)
  else if r == 99 || r == 67 then   -- 'c': exp-only
    if !m1.exp then .error (.wrongMacroSyntax (.macroLetterOnlyInExp 99))
    else
      match parseDelimiter (mMoveon m1) (ipString p.ip) with
      | .error e => .error (.wrongMacroSyntax e)
      | .ok (res, m2) =>
        .ok (res, if res == [] || res == gs "<nil>" then gs "SMTP client IP {c}" else [], m2)
  else if r == 114 || r == 82 then   -- 'r': exp-only
    if !m1.exp then .error (.wrongMacroSyntax (.macroLetterOnlyInExp 114))
    else
      match parseDelimiter (mMoveon m1) p.receivingFQDN with
      | .error e => .error (.wrongMacroSyntax e)
      | .ok (res, m2) => .ok (res, if res == [] then gs "receivingDomain {r}" else [], m2)
  else if r == 116 || r == 84 then   -- 't': exp-only
    if !m1.exp then .error (.wrongMacroSyntax (.macroLetterOnlyInExp 116))
    else
      match parseDelimiter (mMoveon m1) (formatInt p.evaluatedOnUnix) with
      | .error e => .error (.wrongMacroSyntax e)
      | .ok (res, m2) => .ok (res, if res == [] then gs "current timestamp {t}" else [], m2)
  else
    -- no switch case: the Go switch falls through with result "" untouched
    .ok ([], [], m1)

/-- `scanMacro`: one `%{...}` body in live-expansion mode. -/
def scanMacro (m : MacroSt) (p : Pctx) : Except Err (MState × MacroSt) := do
  let (r, m1) ← mNext m
  let (result, missing, m2) ← scanMacroLetter m1 p r
  let (r2, m3) ← mNext m2
  if r2 ≠ 125 then .error (.macroUnexpectedChar r2)
  else
    let m4 := mCollectMissing (mCollect m3 result) missing
    .ok (.text, mMoveon (mMoveon m4))

/-- `scanMacroPartial`: one `%{...}` body in partial-macro mode: only `%{d}`
expands; every other macro body is copied back verbatim. -/
def scanMacroPartial (m : MacroSt) (p : Pctx) : Except Err (MState × MacroSt) := do
  let (r, m1) ← mNext m
  let (result, m2) ←
    if r == 115 || r == 83 || r == 108 || r == 76 || r == 111 || r == 79 ||
       r == 104 || r == 72 || r == 105 || r == 73 || r == 99 || r == 67 ||
       r == 114 || r == 82 || r == 116 || r == 84 then
      match skipMacroBody (mMoveon m1) with
      | .error e => .error (.wrongMacroSyntax e)
      | .ok m2 => pure (([] : GoStr), m2)
    else if r == 100 || r == 68 then
      match parseDelimiter (mMoveon m1) (removeRoot p.domain) with
      | .error e => .error (.wrongMacroSyntax e)
      | .ok (res, m2) => pure (res, m2)
    else
      pure (([] : GoStr), m1)
  let (r2, m3) ← mNext m2
  if r2 ≠ 125 then .error (.macroUnexpectedChar r2)
  else
    let m4 := if result ≠ [] then mMoveon (mCollect m3 result) else mCollectMacroBody m3
    .ok (.text, mMoveon m4)

/-- The `for m.state != nil` driver loop of `parseMacro`. -/
def runMacro : Nat → MState → MacroSt → Pctx → Except Err MacroSt
  | 0, _, _, _ => .error .outOfFuel
  | fuel + 1, st, m, p =>
    match st with
    | .text =>
      let (nxt, m') := scanText (m.length + 1) p.partialMacros m
      match nxt with
      | none => .ok m'
      | some s => runMacro fuel s m' p
    | .percent => do
      let (s, m') ← scanPercent m
      runMacro fuel s m' p
    | .percentPartial => do
      let (s, m') ← scanPercentPartial m
      runMacro fuel s m' p
    | .macroFull => do
      let (s, m') ← scanMacro m p
      runMacro fuel s m' p
    | .macroPartial => do
      let (s, m') ← scanMacroPartial m p
      runMacro fuel s m' p

/-- `parseMacro`: expand a macro-string against the context; returns
`(expansion, missing macros, error)`. -/
def parseMacro (p : Pctx) (input : GoStr) (exp : Bool) : GoStr × List GoStr × Option Err :=
  match runMacro (2 * strLen input + 4) .text (newMacro input exp) p with
  | .ok m => ((m.output).flatten, m.missingMacros, none)
  | .error e => ([], [], some e)

/-- `parseMacroToken`. -/
def parseMacroToken (p : Pctx) (t : Token) : GoStr × List GoStr × Option Err :=
  parseMacro p t.value false

/-! ## Lexer (`lexer.go`, `token.go`) -/

/-- `isWhitespace` (lexer.go). -/
def isWhitespaceB (r : Nat) : Bool := r == 32 || r == 9 || r == 10

/-- Bytes trimmed by `strings.TrimSpace` (ASCII model of `unicode.IsSpace`). -/
def isSpaceB (r : Nat) : Bool :=
  r == 32 || r == 9 || r == 10 || r == 11 || r == 12 || r == 13

/-- Model of Go `strings.TrimSpace` (ASCII white space). -/
def goTrimSpace (s : GoStr) : GoStr :=
  ((s.dropWhile isSpaceB).reverse.dropWhile isSpaceB).reverse

/-- `qualifiers` map (token.go). -/
def qualifierOf (r : Nat) : tokenType :=
  if r == 43 then qPlus
  else if r == 45 then qMinus
  else if r == 63 then qQuestionMark
  else qTilde

/-- `tokenTypeFromString` (token.go). -/
def tokenTypeFromString (s : GoStr) : tokenType :=
  let l := goToLower s
  if l == gs "v" then tVersion
  else if l == gs "all" then tAll
  else if l == gs "a" then tA
  else if l == gs "ip4" then tIP4
  else if l == gs "ip6" then tIP6
  else if l == gs "mx" then tMX
  else if l == gs "ptr" then tPTR
  else if l == gs "include" then tInclude
  else if l == gs "redirect" then tRedirect
  else if l == gs "exists" then tExists
  else if l == gs "explanation" || l == gs "exp" then tExp
  else tErr

/-- `checkTokenSyntax` (token.go); `delimiter` is the delimiter rune seen. -/
def checkTokenSyntax (tkn : Token) (delimiter : Nat) : Bool :=
  if tkn.mechanism == tErr && tkn.qualifier == qErr then true
  else if tkn.mechanism == tVersion then true
  else if tkn.mechanism == tInclude && tkn.value == [] then false
  else if isModifier tkn.mechanism && delimiter ≠ 61 then false
  else if isMechanism tkn.mechanism && delimiter ≠ 58 then false
  else true

def isAlphaB (r : Nat) : Bool := (65 ≤ r && r ≤ 90) || (97 ≤ r && r ≤ 122)

/-- Matcher for `reNameRFC7208` = `^[A-Za-z][A-Za-z0-9\-_.]*$`. -/
def reNameMatch (s : GoStr) : Bool :=
  match s with
  | [] => false
  | c :: rest =>
    isAlphaB c && rest.all fun c => isAlphaB c || isDigitB c || c == 45 || c == 95 || c == 46

def isMacroLetterLower (r : Nat) : Bool :=
  r == 115 || r == 108 || r == 111 || r == 100 || r == 105 || r == 112 ||
  r == 104 || r == 99 || r == 114 || r == 116 || r == 118

/-- Matcher for `reMacroStringRFC7208` =
`^((%\{[slodiphcrtv][0-9]*r?[.\-+,/_=]*\})|%%|%_|%-|[\x21\x22\x23\x24\x26-\x7E])*$`
(the alternatives are first-byte deterministic, so a direct scan decides the
regex). -/
def reMacroStringLoop : Nat → GoStr → Bool
  | 0, s => s == []
  | fuel + 1, s =>
    match s with
    | [] => true
    | 37 :: rest =>
      match rest with
      | 123 :: rest2 =>
        (match rest2 with
        | l :: rest3 =>
          if isMacroLetterLower l then
            let rest4 := rest3.dropWhile isDigitB
            let rest5 := match rest4 with
              | 114 :: r5 => r5
              | r5 => r5
            let rest6 := rest5.dropWhile isMacroDelimiter
            match rest6 with
            | 125 :: rest7 => reMacroStringLoop fuel rest7
            | _ => false
          else false
        | [] => false)
      | 37 :: rest2 => reMacroStringLoop fuel rest2
      | 95 :: rest2 => reMacroStringLoop fuel rest2
      | 45 :: rest2 => reMacroStringLoop fuel rest2
      | _ => false
    | c :: rest =>
      (c == 0x21 || c == 0x22 || c == 0x23 || c == 0x24 || (0x26 ≤ c && c ≤ 0x7E)) &&
      reMacroStringLoop fuel rest

def reMacroStringMatch (s : GoStr) : Bool := reMacroStringLoop (s.length + 1) s

/-- `checkUnknownModifierSyntax` (lexer.go). -/
def checkUnknownModifierSyntax (key value : GoStr) : Bool :=
  reNameMatch key && reMacroStringMatch value

/-- The lexer state (`lexer` struct). -/
structure LexSt where
  start : Nat
  pos : Nat
  prev : Nat
  length : Nat
  input : GoStr

/-- `lexer.next()`: `none` models the eof return. -/
def lNext (l : LexSt) : Option (Nat × LexSt) :=
  if l.pos ≥ l.length then none
  else
    let rs := decodeRune (strFrom l.input l.pos)
    some (rs.1, { l with prev := l.pos, pos := l.pos + rs.2 })

/-- `lexer.scanWhitespaces()`: advance to the first non-whitespace rune. -/
def scanWhitespaces : Nat → LexSt → LexSt
  | 0, l => l
  | fuel + 1, l =>
    match lNext l with
    | none => l
    | some (ch, l') =>
      if !isWhitespaceB ch then { l' with pos := l'.prev }
      else scanWhitespaces fuel l'

/-- The `for cursor < l.pos` loop of `scanIdent`: returns
`some (token, start')` when the loop broke at a `=`/`:`/`/` delimiter, and
`(none, qualifier, hasQualifier?, start')` data when it fell off the end.
The accumulating token before the break holds only the qualifier. -/
def scanIdentLoop (input : GoStr) (lpos : Nat) :
    Nat → Nat → Nat → tokenType → Bool → (Option Token) × tokenType × Nat × Nat
  | 0, cursor, lstart, qual, _ => (none, qual, lstart, cursor)
  | fuel + 1, cursor, lstart, qual, hasQualifier =>
    if cursor < lpos then
      let rs := decodeRune (strFrom input cursor)
      let ch := rs.1
      let cursor' := cursor + rs.2
      if ch == 43 || ch == 45 || ch == 126 || ch == 63 then
        if hasQualifier then
          scanIdentLoop input lpos fuel cursor' cursor' qErr true
        else
          scanIdentLoop input lpos fuel cursor' cursor' (qualifierOf ch) true
      else if ch == 61 || ch == 58 || ch == 47 then
        -- delimiter: build the token and break
        let t0 : Token := { mechanism := tErr, qualifier := qual, key := [], value := [] }
        let t1 :=
          if t0.qualifier ≠ qErr then
            let mech := tokenTypeFromString (strSlice input lstart (cursor' - rs.2))
            let p := if ch == 47 then cursor' - rs.2 else cursor'
            { t0 with mechanism := mech, value := goTrimSpace (strSlice input p lpos) }
          else t0
        let chEff := if ch == 47 then 58 else ch
        let q := t1.qualifier
        let t2 :=
          if t1.value == [] || !checkTokenSyntax t1 chEff then
            { t1 with qualifier := qErr, mechanism := tErr }
          else t1
        let t3 := { t2 with key := strSlice input lstart (cursor' - rs.2) }
        let t4 :=
          if chEff == 61 && t3.mechanism == tErr && q ≠ qErr &&
             checkUnknownModifierSyntax t3.key t3.value then
            { t3 with mechanism := tUnknownModifier, qualifier := q }
          else t3
        (some t4, t4.qualifier, lstart, cursor')
      else
        scanIdentLoop input lpos fuel cursor' lstart qual hasQualifier
    else (none, qual, lstart, cursor)

/-- `scanIdent` (lexer.go). -/
def scanIdent (l : LexSt) : Token × LexSt :=
  let start0 := l.start
  let (broke, qual, lstart, cursor) :=
    scanIdentLoop l.input l.pos (l.pos + 1 - l.start) l.start l.start qPlus false
  let t :=
    match broke with
    | some t => t
    | none => { mechanism := tErr, qualifier := qual, key := [], value := [] }
  let t :=
    if t.isErr then
      let t' := { t with mechanism := tokenTypeFromString (goTrimSpace (strSlice l.input lstart cursor)) }
      if t'.isErr then
        { t' with mechanism := tErr, qualifier := qErr,
                  value := goTrimSpace (strSlice l.input start0 l.pos) }
      else t'
    else t
  (t, { l with start := lstart })

/-- `lexer.scan()`. -/
def lexScan : Nat → LexSt → Token × LexSt
  | 0, l => ({ mechanism := tEOF, qualifier := tEOF, key := [], value := [] }, l)
  | fuel + 1, l =>
    match lNext l with
    | none => ({ mechanism := tEOF, qualifier := tEOF, key := [], value := [] }, l)
    | some (r, l') =>
      if isWhitespaceB r || l'.pos ≥ l'.length then
        let (t, l2) := scanIdent l'
        let l3 := scanWhitespaces (l2.length + 1) l2
        (t, { l3 with start := l3.pos })
      else lexScan fuel l'

/-- `lex` (lexer.go): tokenize an SPF record. -/
def lexLoop : Nat → LexSt → List Token
  | 0, _ => []
  | fuel + 1, l =>
    let (t, l') := lexScan (l.length + 1) l
    if t.mechanism == tEOF then [] else t :: lexLoop fuel l'

def lex (input : GoStr) : List Token :=
  lexLoop (strLen input + 1) { start := 0, pos := 0, prev := 0, length := strLen input, input := input }

/-! ## Resolver model

The engine depends only on the `Resolver` interface.  A `DNSEnv` is the
observable behaviour of the injected resolver: one response table per
query kind.  `MatchIP` / `MatchMX` iterate the looked-up addresses through
the matcher with first-match-or-first-error semantics, exactly as every
`Resolver` implementation in the repository does (`resolver_std.go`;
parallel fan-out is observably equivalent per the spec's concurrency
contract).  DNS budget enforcement lives in the wrapping `LimitedResolver`,
modelled separately below for the lookup-budget claim; `parser.go` is
agnostic to it ("DNS lookup limits need to be enforced by provided
Resolver"). -/

/-- `ResponseExtras`. -/
structure Extras where
  ttl : Int
  void : Bool
  deriving DecidableEq, Repr

/-- A DNS response: data, optional extras, optional error. -/
abbrev DNSResp (α : Type) := α × Option Extras × Option Err

structure DNSEnv where
  txt : GoStr → DNSResp (List GoStr)
  txtStrict : GoStr → DNSResp (List GoStr)
  existsHost : GoStr → DNSResp Bool
  addrs : GoStr → DNSResp (List IP)
  mxHosts : GoStr → DNSResp (List GoStr)
  ptr : GoStr → DNSResp (List GoStr)

/-- An `IPMatcherFunc`. -/
abbrev Matcher := IP → GoStr → Bool × Option Err

/-- `Resolver.MatchIP`: address lookup, then the matcher per address,
stopping at the first match or matcher error. -/
def rMatchIP (env : DNSEnv) (name : GoStr) (matcher : Matcher) : DNSResp Bool :=
  let (ips, extras, err) := env.addrs name
  match err with
  | some e => (false, none, some e)
  | none =>
    let rec go : List IP → DNSResp Bool
      | [] => (false, extras, none)
      | ip :: rest =>
        let (m, e) := matcher ip name
        if m || e ≠ none then (m, extras, e) else go rest
    go ips

/-- `Resolver.MatchMX`: MX lookup, then `MatchIP` per exchange host,
stopping at the first match or error. -/
def rMatchMX (env : DNSEnv) (name : GoStr) (matcher : Matcher) : DNSResp Bool :=
  let (mxs, extras, err) := env.mxHosts name
  match err with
  | some e => (false, none, some e)
  | none =>
    let rec go : List GoStr → DNSResp Bool
      | [] => (false, extras, none)
      | host :: rest =>
        let (m, _, e) := rMatchIP env host matcher
        if m || e ≠ none then (m, extras, e) else go rest
    go mxs

/-! ## Models of the Go `net` IP parsing used by `ip4:`/`ip6:`/dual-CIDR -/

/-- Decimal field of an IPv4 dotted quad: value ≤ 255, no leading zeros
(Go ≥ 1.17 `ParseIP`). -/
def v4Field (s : GoStr) : Option Nat :=
  if s = [] ∨ ¬ s.all isDigitB then none
  else if s.length > 1 ∧ strIdx s 0 = 48 then none
  else
    let v := s.foldl (fun acc d => acc * 10 + (d - 48)) 0
    if v ≤ 255 then some v else none

/-- Parse `a.b.c.d` into four bytes. -/
def parseV4Text (s : GoStr) : Option IP :=
  match (s.splitOn 46).mapM v4Field with
  | some fields => if fields.length == 4 then some fields else none
  | none => none

/-- Hex field of an IPv6 group: 1-4 hex digits. -/
def hexField (s : GoStr) : Option Nat :=
  let hv : Byte → Option Nat := fun c =>
    if 48 ≤ c ∧ c ≤ 57 then some (c - 48)
    else if 97 ≤ c ∧ c ≤ 102 then some (c - 87)
    else if 65 ≤ c ∧ c ≤ 70 then some (c - 55)
    else none
  if s = [] ∨ s.length > 4 then none
  else (s.mapM hv).map (·.foldl (fun acc d => acc * 16 + d) 0)

/-- Groups of an IPv6 half (no `::` inside); the last group may be an
embedded dotted-quad (two 16-bit groups). -/
def v6Half (s : GoStr) : Option (List Nat) :=
  if s = [] then some []
  else
    (s.splitOn 58).foldr
      (fun part acc =>
        match acc with
        | none => none
        | some gsf =>
          match hexField part with
          | some g => some (g :: gsf)
          | none =>
            -- an embedded IPv4 tail is only legal as the very last part
            if gsf = [] then
              match parseV4Text part with
              | some [a, b, c, d] => some [a * 256 + b, c * 256 + d]
              | _ => none
            else none)
      (some [])

/-- Model of Go IPv6 text parsing: optional single `::`, eight 16-bit groups
total, optional embedded dotted-quad tail. -/
def parseV6Text (s : GoStr) : Option IP :=
  let expand : List Nat → IP := fun groups =>
    groups.flatMap (fun g => [g / 256, g % 256])
  match s.splitOn 58 |>.length with
  | _ =>
    -- split on "::" first (at most one occurrence)
    let idx := (List.range (s.length + 1)).find? fun i =>
      strSlice s i (i + 2) = [58, 58]
    match idx with
    | none =>
      match v6Half s with
      | some groups => if groups.length == 8 then some (expand groups) else none
      | none => none
    | some i =>
      let left := strSlice s 0 i
      let right := strFrom s (i + 2)
      if (List.range (right.length + 1)).any (fun j => strSlice right j (j + 2) = [58, 58]) then none
      else
        match v6Half left, v6Half right with
        | some l, some r =>
          if l.length + r.length ≤ 7 then
            some (expand (l ++ List.replicate (8 - l.length - r.length) 0 ++ r))
          else none
        | _, _ => none

/-- Model of Go `net.ParseIP`: the first `.`/`:` decides the family; IPv4
parses to its 16-byte IPv4-in-IPv6 form. -/
def goParseIP (s : GoStr) : Option IP :=
  match s.find? (fun c => c == 46 || c == 58) with
  | some 46 => (parseV4Text s).map (v4InV6Prefix ++ ·)
  | some 58 => parseV6Text s
  | _ => none

/-- Model of Go `net.CIDRMask`. -/
def cidrMask (ones bits : Int) : Option (List Nat) :=
  if 0 ≤ ones ∧ ones ≤ bits ∧ (bits == 32 ∨ bits == 128) then
    let n := ones.toNat
    some ((List.range (bits.toNat / 8)).map fun i =>
      if (i + 1) * 8 ≤ n then 255
      else if i * 8 ≥ n then 0
      else 256 - 2 ^ (8 - (n - i * 8)))
  else none

/-- Bytewise masked equality (`nn[i]&m[i] == ip[i]&m[i]`). -/
def maskedEq (nn ip m : List Nat) : Bool :=
  (List.range m.length).all fun i =>
    nn.getD i 0 &&& m.getD i 0 == ip.getD i 0 &&& m.getD i 0

/-- Model of Go `net.IPNet.Contains` (with `networkNumberAndMask`
alignment). -/
def ipnetContains (nnIP : IP) (mask : List Nat) (ip0 : IP) : Bool :=
  let ip := match ipTo4 ip0 with | some x => x | none => ip0
  let nn := match ipTo4 nnIP with | some x => x | none => nnIP
  let (nn, m) :=
    if mask.length == 4 then (nn, mask)
    else if mask.length == 16 then
      if nn.length == 4 then (nn, mask.drop 12) else (nn, mask)
    else (nn, mask)
  if ip.length ≠ nn.length ∨ ip.length ≠ m.length then false
  else maskedEq nn ip m

/-- Go `strconv.Atoi` with optional sign (for CIDR lengths). -/
def goAtoiSigned (s : GoStr) : Except Err Int :=
  match s with
  | 45 :: rest => (goAtoi rest).map (fun n => -n)
  | 43 :: rest => goAtoi rest
  | _ => goAtoi s

/-- Apply a mask to an address of the same length (Go `IP.Mask`; used for the
network half of `ParseCIDR`). -/
def ipApplyMask (ip m : List Nat) : IP :=
  (List.range m.length).map fun i => ip.getD i 0 &&& m.getD i 0

/-- Model of Go `net.ParseCIDR`: returns `(addr, network, mask)`; the address
is in its native length (4 bytes for dotted-quad text). -/
def goParseCIDR (s : GoStr) : Option (IP × IP × List Nat) :=
  match s.findIdx? (· == 47) with
  | none => none
  | some i =>
    let addrTxt := strSlice s 0 i
    let maskTxt := strFrom s (i + 1)
    let ones :=
      if maskTxt ≠ [] ∧ maskTxt.all isDigitB ∧
         ¬ (maskTxt.length > 1 ∧ strIdx maskTxt 0 = 48) then
        some (Int.ofNat (maskTxt.foldl (fun acc d => acc * 10 + (d - 48)) 0))
      else none
    match ones with
    | none => none
    | some n =>
      match addrTxt.find? (fun c => c == 46 || c == 58) with
      | some 46 =>
        match parseV4Text addrTxt, cidrMask n 32 with
        | some ip4, some m => some (ip4, ipApplyMask ip4 m, m)
        | _, _ => none
      | some 58 =>
        match parseV6Text addrTxt, cidrMask n 128 with
        | some ip6, some m => some (ip6, ipApplyMask ip6 m, m)
        | _, _ => none
      | _ => none

/-! ## Mechanism evaluators (`parser.go`) -/

/-- `matchingResult`. -/
def matchingResult (qualifier : tokenType) : Result × Option Err :=
  if qualifier == qPlus then (.Pass, none)
  else if qualifier == qMinus then (.Fail, none)
  else if qualifier == qQuestionMark then (.Neutral, none)
  else if qualifier == qTilde then (.Softfail, none)
  else (.internalError, some (NewSpfError .validation .invalidQualifier none))

/-- `domainSpec`. -/
def domainSpec (s def_ : GoStr) : GoStr :=
  if s == [] then def_
  else if strIdx s 0 == 47 then def_ ++ s
  else s

/-- `parseCIDRMask` (parser.go). -/
def parseCIDRMask (s : GoStr) (bits : Int) : Except Err (List Nat) :=
  if s == [] then
    match cidrMask bits bits with
    | some m => .ok m
    | none => .error .invalidCIDRLength
  else
    match goAtoiSigned s with
    | .error _ => .error .invalidCIDRLength
    | .ok l =>
      match cidrMask l bits with
      | some m => .ok m
      | none => .error .invalidCIDRLength

/-- Go `strings.SplitN(s, "/", 3)`. -/
def goSplitN3 (s : GoStr) : List GoStr :=
  match s.findIdx? (· == 47) with
  | none => [s]
  | some i =>
    let rest := strFrom s (i + 1)
    match rest.findIdx? (· == 47) with
    | none => [strSlice s 0 i, rest]
    | some j => [strSlice s 0 i, strSlice rest 0 j, strFrom rest (j + 1)]

/-- `splitDomainDualCIDR`. -/
def splitDomainDualCIDR (domain : GoStr) : Except Err (GoStr × List Nat × List Nat) := do
  let parts := goSplitN3 domain
  let d := parts.headD []
  let ip4Len := parts.getD 1 []
  let ip6Len := parts.getD 2 []
  let ip4Mask ← parseCIDRMask ip4Len 32
  let ip6Mask ← parseCIDRMask ip6Len 128
  .ok (d, ip4Mask, ip6Mask)

/-- `parseVersion`: `(match, result, error)`. -/
def parseVersion (t : Token) : Bool × Result × Option Err :=
  if t.value == gs "spf1" then (false, .None, none)
  else (true, .Permerror, some (NewSpfError .kSyntax (.invalidVersion t.value) (some t)))

/-- `parseAll`. -/
def parseAll (t : Token) : Bool × Result × Option Err :=
  match matchingResult t.qualifier with
  | (_, some e) => (true, .Permerror, some (NewSpfError .kSyntax e (some t)))
  | (result, none) => (true, result, none)

/-- `parseIP4`. -/
def parseIP4 (ctx : Pctx) (t : Token) : Bool × Result × Option Err :=
  let result := (matchingResult t.qualifier).1
  match goParseCIDR t.value with
  | some (ip, netIP, mask) =>
    if ipTo4 ip == none then (true, .Permerror, some (NewSpfError .kSyntax .notIPv4 (some t)))
    else (ipnetContains netIP mask ctx.ip, result, none)
  | none =>
    match (goParseIP t.value).bind ipTo4 with
    | none => (true, .Permerror, some (NewSpfError .kSyntax .notIPv4 (some t)))
    | some ip4 => (ipEqual ip4 ctx.ip, result, none)

/-- `parseIP6`. -/
def parseIP6 (ctx : Pctx) (t : Token) : Bool × Result × Option Err :=
  let result := (matchingResult t.qualifier).1
  match goParseCIDR t.value with
  | some (ip, netIP, mask) =>
    if ipTo16 ip == none then (true, .Permerror, some (NewSpfError .kSyntax .notIPv6 (some t)))
    else (ipnetContains netIP mask ctx.ip, result, none)
  | none =>
    match goParseIP t.value with
    | none => (true, .Permerror, some (NewSpfError .kSyntax .notIPv6 (some t)))
    | some ip =>
      if ipTo4 ip ≠ none ∨ ipTo16 ip == none then
        (true, .Permerror, some (NewSpfError .kSyntax .notIPv6 (some t)))
      else (ipEqual ip ctx.ip, result, none)

/-! ## Evaluation engine (`parser.go`)

`checkHost` recurses through `parseInclude`/`handleRedirect`; the embedding
gives every such function the recursive entry point as an explicit `rec`
argument, and `checkHost fuel` ties the knot by structural recursion on
`fuel`.  The shared visited-domain stack is threaded in and out. -/

/-- The result quadruple of `checkHost`: result, explanation, selected
policy, error. -/
abbrev CheckRes := Result × GoStr × GoStr × Option Err

/-- The type of `checkHost`, with the threaded visited stack. -/
abbrev CheckHostFn := DNSEnv → Pctx → List GoStr → IP → GoStr → GoStr → CheckRes × List GoStr

/-- The `err == nil`-chained domain-spec preprocessing shared verbatim by
`parseInclude` and `parseExists`: macro expansion, truncation, domain
validation, missing-macro override, normalization. -/
def includePreprocess (ctx : Pctx) (t : Token) : GoStr × Option Err :=
  let (domain0, missing, err0) := parseMacro ctx t.value false
  let (domain1, err1) :=
    if err0 == none then
      match truncateFQDN domain0 with
      | .ok f => (f, (none : Option Err))
      | .error e => ([], some e)
    else (domain0, err0)
  let err2 := if err1 == none ∧ !isDomainName domain1 then some (Err.invalidDomain domain1) else err1
  let err3 := if missing ≠ [] then some (Err.missingMacros domain1 missing) else err2
  (NormalizeFQDN domain1, err3)

/-- The same chain without the missing-macro override, as `parsePtr` and
`handleRedirect` use it (they discard the missing-macro list). -/
def ptrPreprocess (ctx : Pctx) (value : GoStr) : GoStr × Option Err :=
  let (f1, _, e0) := parseMacro ctx value false
  let (f2, e1) :=
    if e0 == none then
      match truncateFQDN f1 with
      | .ok f => (f, (none : Option Err))
      | .error e => ([], some e)
    else (f1, e0)
  let e2 := if e1 == none ∧ !isDomainName f2 then some (Err.invalidDomain f2) else e1
  (NormalizeFQDN f2, e2)

/-- The dual-CIDR variant of the chain, for `parseA`/`parseMX`. -/
def dualCIDRPreprocess (ctx : Pctx) (t : Token) : GoStr × List Nat × List Nat × Option Err :=
  let (fqdn0, m4, m6, err0) :=
    match splitDomainDualCIDR (domainSpec t.value ctx.domain) with
    | .error e => (([] : GoStr), ([] : List Nat), ([] : List Nat), some e)
    | .ok (d, a, b) => (d, a, b, none)
  let (fqdn1, err1) :=
    if err0 == none then
      let r := parseMacro ctx fqdn0 false
      (r.1, r.2.2)
    else (fqdn0, err0)
  let (fqdn2, err2) :=
    if err1 == none then
      match truncateFQDN fqdn1 with
      | .ok f => (f, (none : Option Err))
      | .error e => ([], some e)
    else (fqdn1, err1)
  let err3 := if err2 == none ∧ !isDomainName fqdn2 then some (Err.invalidDomain fqdn2) else err2
  (NormalizeFQDN fqdn2, m4, m6, err3)

/-- The `a`/`mx` matcher closure: wrap each address with the per-family mask
and test containment of the client IP. -/
def dualCIDRMatcher (ctx : Pctx) (m4 m6 : List Nat) : Matcher := fun ip _ =>
  (ipnetContains ip (if ip.length == 4 then m4 else if ip.length == 16 then m6 else []) ctx.ip,
   none)

/-- `parseA`: `(match, result, error)` (extras dropped; they only feed the
listener). -/
def parseA (env : DNSEnv) (ctx : Pctx) (t : Token) : Bool × Result × Option Err :=
  let (fqdn, m4, m6, err) := dualCIDRPreprocess ctx t
  match err with
  | some e => (true, .Permerror, some (NewSpfError .kSyntax e (some t)))
  | none =>
    let result := (matchingResult t.qualifier).1
    let (found, _, errM) := rMatchIP env fqdn (dualCIDRMatcher ctx m4 m6)
    match errM with
    | some e => (found, result, some (NewSpfError .dns e none))
    | none => (found, result, none)

/-- `parseMX`. -/
def parseMX (env : DNSEnv) (ctx : Pctx) (t : Token) : Bool × Result × Option Err :=
  let (fqdn, m4, m6, err) := dualCIDRPreprocess ctx t
  match err with
  | some e => (true, .Permerror, some (NewSpfError .kSyntax e (some t)))
  | none =>
    let result := (matchingResult t.qualifier).1
    let (found, _, errM) := rMatchMX env fqdn (dualCIDRMatcher ctx m4 m6)
    match errM with
    | some e => (true, .Permerror, some (NewSpfError .dns e (some t)))
    | none => (found, result, none)

/-- `parseInclude`: recursive `checkHost` on the resolved domain, child
result mapped per the RFC 7208 §5.2 table. -/
def parseInclude (rec : CheckHostFn) (env : DNSEnv) (ctx : Pctx) (t : Token)
    (vis : List GoStr) : (Bool × Result × Option Err) × List GoStr :=
  let (domain, err) := includePreprocess ctx t
  match err with
  | some e => ((true, .Permerror, some (NewSpfError .kSyntax e (some t))), vis)
  | none =>
    if domain == [] then
      ((true, .Permerror, some (NewSpfError .kSyntax .emptyDomain (some t))), vis)
    else
      let ((theirResult, _, _, errC), vis') := rec env ctx vis ctx.ip domain ctx.sender
      let err' := match errC with
        | none => (none : Option Err)
        | some e => some (wrapErr t e)
      match theirResult with
      | .Pass => ((true, (matchingResult t.qualifier).1, err'), vis')
      | .Fail => ((false, .None, err'), vis')
      | .Softfail => ((false, .None, err'), vis')
      | .Neutral => ((false, .None, err'), vis')
      | .Temperror => ((true, .Temperror, err'), vis')
      | .None => ((true, .Permerror, err'), vis')
      | .Permerror => ((true, .Permerror, err'), vis')
      | .unreliableResult => ((true, .Permerror, some .unreliableResultErr), vis')
      | .internalError => ((true, .Permerror, some .unknownResult), vis')

/-- `parseExists`. -/
def parseExists (env : DNSEnv) (ctx : Pctx) (t : Token) : Bool × Result × Option Err :=
  let (resolvedDomain, err) := includePreprocess ctx t
  match err with
  | some e => (true, .Permerror, some (NewSpfError .kSyntax e (some t)))
  | none =>
    if resolvedDomain == [] then
      (true, .Permerror, some (NewSpfError .kSyntax .emptyDomain (some t)))
    else
      let result := (matchingResult t.qualifier).1
      let (found, _, errD) := env.existsHost resolvedDomain
      match errD with
      | none => (found, result, none)
      | some .dnsPermerror => (false, result, none)
      | some e => (false, .Temperror, some (NewSpfError .dns e none))

/-- The PTR-domain scan of `parsePtr`: first PTR domain that `MatchIP`
confirms (address equal to the client IP and `HasSuffix(ptrDomain, fqdn) ||
fqdn == ptrDomain`) gives the qualifier result; `MatchIP` errors are
skipped; exhaustion gives a non-match with `Fail`. -/
def ptrLoop (env : DNSEnv) (ctx : Pctx) (fqdn : GoStr) (result : Result) :
    List GoStr → Bool × Result × Option Err
  | [] => (false, .Fail, none)
  | ptrDomain :: rest =>
    let (found, _, e) := rMatchIP env ptrDomain (fun ip _ =>
      (ipEqual ip ctx.ip && (goHasSuffix ptrDomain fqdn || fqdn == ptrDomain), none))
    if e ≠ none then ptrLoop env ctx fqdn result rest
    else if found then (true, result, none)
    else ptrLoop env ctx fqdn result rest

/-- `parsePtr` (RFC 7208 §5.5). -/
def parsePtr (env : DNSEnv) (ctx : Pctx) (t : Token) : Bool × Result × Option Err :=
  let (fqdn, err) := ptrPreprocess ctx (domainSpec t.value ctx.domain)
  match err with
  | some e => (true, .Permerror, some (NewSpfError .kSyntax e (some t)))
  | none =>
    let (ptrs, _, errP) := env.ptr (ipString ctx.ip)
    match errP with
    | some .dnsLimitExceeded => (false, .Permerror, some (NewSpfError .dns .dnsLimitExceeded none))
    | some .dnsPermerror => (false, .None, some (NewSpfError .dns .dnsPermerror none))
    | some e => (false, .Temperror, some (NewSpfError .dns e none))
    | none =>
      let result := (matchingResult t.qualifier).1
      ptrLoop env ctx fqdn result ptrs

/-- `handleRedirect`: `nil` token gives Neutral; otherwise recursive
`checkHost` on the redirect target, with error or None/Permerror mapped to
Permerror (RFC 7208 §6.1). -/
def handleRedirect (rec : CheckHostFn) (env : DNSEnv) (ctx : Pctx) (t? : Option Token)
    (vis : List GoStr) : (Result × Option Err) × List GoStr :=
  match t? with
  | none => ((.Neutral, none), vis)
  | some t =>
    let (redirectDomain, err) := ptrPreprocess ctx t.value
    match err with
    | some e => ((.Permerror, some (NewSpfError .kSyntax e (some t))), vis)
    | none =>
      let ((result, _, _, errC), vis') := rec env ctx vis ctx.ip redirectDomain ctx.sender
      match errC with
      | some e => ((.Permerror, some e), vis')
      | none =>
        if result == .None || result == .Permerror then ((.Permerror, none), vis')
        else ((result, none), vis')

/-- `handleExplanation`. -/
def handleExplanation (env : DNSEnv) (ctx : Pctx) (t : Token) : GoStr × Option Err :=
  let (domain0, _, e0) := parseMacroToken ctx t
  match e0 with
  | some e => ([], some (NewSpfError .kSyntax e (some t)))
  | none =>
    if domain0 == [] then ([], some (NewSpfError .kSyntax .emptyDomain (some t)))
    else
      match truncateFQDN domain0 with
      | .error e => ([], some (NewSpfError .kSyntax e (some t)))
      | .ok domain1 =>
        if !isDomainName domain1 then
          ([], some (NewSpfError .kSyntax (.invalidDomain domain1) (some t)))
        else
          let (txts, _, e2) := env.txt (NormalizeFQDN domain1)
          match e2 with
          | some e => ([], some (NewSpfError .dns e (some t)))
          | none =>
            -- RFC 7208 §6.2: strings concatenated without spaces
            let (exp, _, e3) := parseMacro ctx txts.flatten true
            match e3 with
            | some e => ([], some (NewSpfError .kSyntax e (some t)))
            | none => (exp, none)

/-- `sortTokens`: partition into mechanisms (document order), at most one
redirect, at most one exp, and unknown modifiers; the first error token or
duplicate modifier aborts. -/
def sortTokensGo : List Token → List Token → Option Token → Option Token → List Token →
    List Token × Option Token × Option Token × List Token × Option Err
  | [], mechs, redirect, expl, unknowns => (mechs, redirect, expl, unknowns, none)
  | t :: rest, mechs, redirect, expl, unknowns =>
    if t.isErr then
      (mechs, redirect, expl, unknowns, some (NewSpfError .kSyntax .syntaxError (some t)))
    else if isMechanism t.mechanism then
      sortTokensGo rest (mechs ++ [t]) redirect expl unknowns
    else if t.mechanism == tRedirect then
      match redirect with
      | some _ => (mechs, redirect, expl, unknowns, some .tooManyRedirects)
      | none => sortTokensGo rest mechs (some t) expl unknowns
    else if t.mechanism == tExp then
      match expl with
      | some _ => (mechs, redirect, expl, unknowns, some .tooManyExps)
      | none => sortTokensGo rest mechs redirect (some t) unknowns
    else if t.mechanism == tUnknownModifier then
      sortTokensGo rest mechs redirect expl (unknowns ++ [t])
    else
      sortTokensGo rest mechs redirect expl unknowns

def sortTokens (tokens : List Token) :
    List Token × Option Token × Option Token × List Token × Option Err :=
  sortTokensGo tokens [] none none []

/-- Outcome of the mechanism loop of `evaluate`: an early `return` on match,
or falling off the loop with the `all` flag and the last mechanism's
result/error. -/
inductive EvalOut where
  | matched (r : Result) (expl : GoStr) (e : Option Err) (vis : List GoStr)
  | fell (all : Bool) (r : Result) (e : Option Err) (vis : List GoStr)
  deriving DecidableEq, Repr

/-- The visited stack carried by a loop outcome. -/
def EvalOut.vis : EvalOut → List GoStr
  | .matched _ _ _ v => v
  | .fell _ _ _ v => v

/-- One mechanism dispatch step (the `switch token.mechanism` of
`evaluate`); `result`/`err` persist across iterations in Go, so the default
branch leaves them unchanged. -/
def evalStep (rec : CheckHostFn) (env : DNSEnv) (ctx : Pctx) (t : Token)
    (result : Result) (err : Option Err) (vis : List GoStr) :
    (Bool × Result × Option Err) × List GoStr :=
  if t.mechanism == tVersion then (parseVersion t, vis)
  else if t.mechanism == tAll then (parseAll t, vis)
  else if t.mechanism == tA then (parseA env ctx t, vis)
  else if t.mechanism == tIP4 then (parseIP4 ctx t, vis)
  else if t.mechanism == tIP6 then (parseIP6 ctx t, vis)
  else if t.mechanism == tMX then (parseMX env ctx t, vis)
  else if t.mechanism == tInclude then parseInclude rec env ctx t vis
  else if t.mechanism == tExists then (parseExists env ctx t, vis)
  else if t.mechanism == tPTR then (parsePtr env ctx t, vis)
  else ((false, result, err), vis)

/-- The mechanism loop of `evaluate`. -/
def evalLoop (rec : CheckHostFn) (env : DNSEnv) (ctx : Pctx) (explanation : Option Token) :
    List Token → Bool → Result → Option Err → List GoStr → EvalOut
  | [], all, result, err, vis => .fell all result err vis
  | t :: rest, all, result, err, vis =>
    let all' := if t.mechanism == tAll then true else all
    let ((mtch, result', err'), vis') := evalStep rec env ctx t result err vis
    if mtch then
      let (s, errF) :=
        if result' == .Fail then
          match explanation with
          | some ex => handleExplanation env ctx ex
          | none => ([], err')
        else ([], err')
      .matched result' s errF vis'
    else evalLoop rec env ctx explanation rest all' result' err' vis'

/-- `evaluate`: sort, walk mechanisms to the first match, otherwise redirect
(only when no `all` was seen). -/
def evaluate (rec : CheckHostFn) (env : DNSEnv) (ctx : Pctx) (tokens : List Token)
    (vis : List GoStr) : (Result × GoStr × Option Err) × List GoStr :=
  let (mechanisms, redirect, explanation, _, errS) := sortTokens tokens
  match errS with
  | some e => ((.Permerror, [], some e), vis)
  | none =>
    match evalLoop rec env ctx explanation mechanisms false .Neutral none vis with
    | .matched r s e vis' => ((r, s, e), vis')
    | .fell all r e vis' =>
      if !all then
        let ((r', e'), vis'') := handleRedirect rec env ctx redirect vis'
        ((r', [], e'), vis'')
      else ((r, [], e), vis')

/-- One directive dispatch of `observe`'s token loop: `redirect` feeds
`handleRedirect` (its error discarded), `exp` only notifies the listener,
everything else dispatches as in `evaluate`. -/
def obsStep (rec : CheckHostFn) (env : DNSEnv) (ctx : Pctx) (t : Token)
    (result : Result) (err : Option Err) (vis : List GoStr) :
    (Bool × Result × Option Err) × List GoStr :=
  if t.mechanism == tRedirect then
    let ((r, _), v) := handleRedirect rec env ctx (some t) vis
    ((false, r, err), v)
  else if t.mechanism == tExp then
    ((false, result, err), vis)
  else evalStep rec env ctx t result err vis

/-- The token loop of `observe` (walker mode): visit every directive, never
return on match, count errors against `stopAtError`. -/
def obsLoop (rec : CheckHostFn) (env : DNSEnv) (ctx : Pctx) :
    List Token → Result → Option Err → List GoStr → (Result × GoStr × Option Err) × List GoStr
  | [], _, _, vis => ((.unreliableResult, [], some .unreliableResultErr), vis)
  | t :: rest, result, err, vis =>
    let ((_, result', err'), vis') := obsStep rec env ctx t result err vis
    match ctx.stopAtError with
    | some stop =>
      if stop err' then ((.unreliableResult, [], some .tooManyErrors), vis')
      else obsLoop rec env ctx rest result' err' vis'
    | none => obsLoop rec env ctx rest result' err' vis'

/-- `observe`. -/
def observe (rec : CheckHostFn) (env : DNSEnv) (ctx : Pctx) (tokens : List Token)
    (vis : List GoStr) : (Result × GoStr × Option Err) × List GoStr :=
  let (_, _, _, _, errS) := sortTokens tokens
  match errS with
  | some e => ((.Permerror, [], some e), vis)
  | none => obsLoop rec env ctx tokens .Neutral none vis

/-- `check`: push the frame's domain, lex the policy, evaluate or observe,
pop on exit (the Go `defer`). -/
def check (rec : CheckHostFn) (env : DNSEnv) (ctx : Pctx) (query : GoStr)
    (vis : List GoStr) : (Result × GoStr × Option Err) × List GoStr :=
  let vis1 := vis ++ [ctx.domain]
  let tokens := lex query
  let (res, vis2) :=
    if ctx.ignoreMatches then observe rec env ctx tokens vis1
    else evaluate rec env ctx tokens vis1
  (res, vis2.dropLast)

/-- `checkHost` (parser.go), by structural recursion on fuel. -/
def checkHost : Nat → CheckHostFn
  | 0, _, _, vis, _, _, _ => ((.internalError, [], [], some .outOfFuel), vis)
  | fuel + 1, env, ctx, vis, ip, domain, sender =>
    if !isDomainName domain then
      ((.None, [], [], some (Err.invalidDomain domain)), vis)
    else if vis.contains (NormalizeFQDN domain) then
      ((.Permerror, [], [], some (NewSpfError .validation .loopDetected none)), vis)
    else
      let (txts, _, err) := env.txtStrict (NormalizeFQDN domain)
      let (_, policies) := FilterSPFCandidates txts
      match err with
      | some .dnsLimitExceeded =>
        ((.Permerror, [], [], some (NewSpfError .dns .dnsLimitExceeded none)), vis)
      | some .dnsPermerror =>
        ((.None, [], [], some (NewSpfError .dns .dnsPermerror none)), vis)
      | some e =>
        ((.Temperror, [], [], some (NewSpfError .dns e none)), vis)
      | none =>
        if policies.length == 0 then
          ((.None, [], [], some (NewSpfError .validation (.spfNotFound domain) none)), vis)
        else if policies.length > 1 then
          ((.Permerror, [], [], some (NewSpfError .validation (.tooManySPFRecords domain policies) none)), vis)
        else
          let spfRec := policies.headD []
          let ctx' := { ctx with sender := sender, domain := domain, ip := ip }
          let ((r, expl, e), vis') := check (checkHost fuel) env ctx' spfRec vis
          ((r, expl, spfRec, e), vis')

/-- `CheckHost` (spf.go): the public entry point normalizes the domain and
starts with a fresh visited stack. -/
def CheckHost (fuel : Nat) (env : DNSEnv) (ctx : Pctx) (ip : IP) (domain sender : GoStr) :
    CheckRes :=
  (checkHost fuel env ctx [] ip (NormalizeFQDN domain) sender).1

/-! ## LimitedResolver (`resolver_limited.go`)

The budget-keeping wrapper.  Its counters are the only state; what the
wrapped resolver answers (including whether the response was void and
whether the inner call failed) is an input of each call. -/

structure LRState where
  lookupLimit : Int
  voidLookupLimit : Int
  deriving DecidableEq, Repr

/-- `NewLimitedResolver(r, 10, 10, 2)` as `newParserWithVisited` constructs
it (the `mxQueriesLimit` is per-call-local and does not live in the shared
state). -/
def lrInit : LRState := { lookupLimit := 10, voidLookupLimit := 2 }

/-- Two-complement wrap to the `int32` range, as `atomic.AddInt32`
arithmetic behaves on overflow. -/
def wrap32 (x : Int) : Int := (x + 2147483648) % 4294967296 - 2147483648

/-- `canLookup`: `atomic.AddInt32(&r.lookupLimit, -1) > 0`.  The add is
32-bit: decrementing past the minimum `int32` wraps the counter positive. -/
def canLookup (st : LRState) : Bool × LRState :=
  let l := wrap32 (st.lookupLimit - 1)
  (l > 0, { st with lookupLimit := l })

/-- `canPerformVoidLookup`: the same wrapping `int32` decrement on the void
counter. -/
def canPerformVoidLookup (st : LRState) : Bool × LRState :=
  let l := wrap32 (st.voidLookupLimit - 1)
  (l > 0, { st with voidLookupLimit := l })

/-- `LookupTXT`: passes straight through, touching no counter ("reserved for
`exp` modifier, does not cause a counted DNS query"). -/
def lrLookupTXT (st : LRState) (inner : Option Err) : Option Err × LRState :=
  (inner, st)

/-- The counter discipline shared verbatim by `LookupTXTStrict`, `Exists`,
`MatchIP`, `MatchMX` and `LookupPTR`: decrement the lookup budget (fail with
`ErrDNSLimitExceeded` when exhausted), then on a void response decrement the
void budget (fail with `ErrDNSVoidLookupLimitExceeded` when exhausted),
otherwise return the wrapped resolver's outcome.  `void` is
`extras != nil && extras.Void` of the inner response; `inner` its error
(for `MatchMX` this includes a limit error from its per-call mx-query
counter). -/
def lrBudgeted (st : LRState) (void : Bool) (inner : Option Err) : Option Err × LRState :=
  let (ok, st1) := canLookup st
  if !ok then (some .dnsLimitExceeded, st1)
  else if void then
    let (okV, st2) := canPerformVoidLookup st1
    if !okV then (some .dnsVoidLookupLimitExceeded, st2)
    else (inner, st2)
  else (inner, st1)

/-- The six resolver operations. -/
inductive OpKind where
  | txt | txtStrict | existsOp | matchIP | matchMX | ptr
  deriving DecidableEq, Repr

/-- One call through the `LimitedResolver`: which operation, whether the
inner response was void, and the inner error if any. -/
structure Call where
  op : OpKind
  void : Bool
  inner : Option Err
  deriving DecidableEq, Repr

/-- Dispatch of one call: `LookupTXT` bypasses the budget, every other
operation runs the shared budget discipline. -/
def lrStep (st : LRState) (c : Call) : Option Err × LRState :=
  match c.op with
  | .txt => lrLookupTXT st c.inner
  | _ => lrBudgeted st c.void c.inner

/-- State after a sequence of calls. -/
def lrFinal : LRState → List Call → LRState
  | st, [] => st
  | st, c :: rest => lrFinal (lrStep st c).2 rest

/-- Number of budget-consuming (non-`LookupTXT`) calls in a sequence that
complete without error. -/
def lrOkCount : LRState → List Call → Nat
  | _, [] => 0
  | st, c :: rest =>
    let (e, st') := lrStep st c
    (if c.op ≠ .txt ∧ e = none then 1 else 0) + lrOkCount st' rest

/-! ## Spec-side definition for the macro-transformer claim

Written from the specification's words ("splits the letter's value on the
chosen delimiter (default `.`), reverses the parts when the `r` transformer
is present, keeps the rightmost `cardinality` parts (all parts when absent,
clamped to the length when larger), and joins with `.`"), to be compared
with `handleItem`, which is translated from the source. -/
def macroTransformSpec (value : GoStr) (cardinality : Int) (reversed : Bool) (delim : Nat) : GoStr :=
  let chosen := if delim == 42 then 46 else delim
  let parts0 := value.splitOn chosen
  let parts := if reversed then parts0.reverse else parts0
  let keep := if cardinality == -1 then parts.length else min cardinality.toNat parts.length
  List.intercalate [46] (parts.drop (parts.length - keep))

/-! ## Concrete fixtures for witnesses and counterexamples -/

/-- The RFC 7208 §7.4 sample context: sender
`strong-bad@email.example.com`, domain `email.example.com`, IP 192.0.2.3. -/
def ctxRFC : Pctx :=
  { sender := gs "strong-bad@email.example.com", domain := gs "email.example.com",
    heloDomain := [], ip := [192, 0, 2, 3], receivingFQDN := gs "unknown",
    evaluatedOnUnix := 0, ignoreMatches := false, partialMacros := false,
    stopAtError := none }

/-- A DNS environment that fails every query with a permanent error. -/
def envEmpty : DNSEnv :=
  { txt := fun _ => ([], none, some .dnsPermerror),
    txtStrict := fun _ => ([], none, some .dnsPermerror),
    existsHost := fun _ => (false, none, some .dnsPermerror),
    addrs := fun _ => ([], none, some .dnsPermerror),
    mxHosts := fun _ => ([], none, some .dnsPermerror),
    ptr := fun _ => ([], none, some .dnsPermerror) }

/-- Environment for the include witness: the TXT lookup of `other.org.`
fails transiently, so the child `checkHost` returns Temperror. -/
def envTemp : DNSEnv :=
  { envEmpty with
    txtStrict := fun n =>
      if n == gs "other.org." then ([], none, some .dnsTemperror)
      else ([], none, some .dnsPermerror) }

/-- Environment for the ptr divergence: the client IP 10.11.12.13 reverses
to `evilmatching.com.`, whose address is the client IP itself. -/
def envPtrBug : DNSEnv :=
  { envEmpty with
    ptr := fun n =>
      if n == gs "10.11.12.13" then ([gs "evilmatching.com."], none, none)
      else ([], none, some .dnsPermerror),
    addrs := fun n =>
      if n == gs "evilmatching.com." then ([[10, 11, 12, 13]], none, none)
      else ([], none, some .dnsPermerror) }

/-- Environment whose TXT RRset for `two.org.` carries two strict `v=spf1`
policies. -/
def envTwoPolicies : DNSEnv :=
  { envEmpty with
    txtStrict := fun n =>
      if n == gs "two.org." then ([gs "v=spf1 -all", gs "v=spf1 ~all"], none, none)
      else ([], none, some .dnsPermerror) }

/-- Context used by the engine witnesses. -/
def ctxW : Pctx :=
  { sender := gs "a@matching.com", domain := gs "matching.com", heloDomain := [],
    ip := [10, 11, 12, 13], receivingFQDN := gs "unknown", evaluatedOnUnix := 0,
    ignoreMatches := false, partialMacros := false, stopAtError := none }

/-- `include:other.org` with the default `+` qualifier. -/
def tokInclude : Token :=
  { mechanism := tInclude, qualifier := qPlus, key := gs "include", value := gs "other.org" }

/-- `ptr:matching.com` with the default `+` qualifier. -/
def tokPtr : Token :=
  { mechanism := tPTR, qualifier := qPlus, key := gs "ptr", value := gs "matching.com" }

/-- `redirect=other.org`. -/
def tokRedirect : Token :=
  { mechanism := tRedirect, qualifier := qPlus, key := gs "redirect", value := gs "other.org" }

/-- The leading `v=spf1` token. -/
def tokVersion : Token :=
  { mechanism := tVersion, qualifier := qPlus, key := gs "v", value := gs "spf1" }

/-- A 254-byte domain with a trailing dot: 253 `a`s followed by `.`. -/
def ce8 : GoStr := List.replicate 253 97 ++ [46]

/-! # Theorems -/

/-! ## C8: `truncateFQDN` bounds and fixed points -/

/-- Any successful output of the long branch has length at most 253. -/
theorem truncateLong_ok_len {s out : GoStr} (hlen : 254 ≤ strLen s)
    (h : truncateLong s = .ok out) : out.length ≤ 253 := by
  have hsl : strLen s = s.length := rfl
  have htlen : (strFrom s (strLen s - 253)).length = 253 := by
    simp [strFrom, strLen]; omega
  simp only [truncateLong] at h
  split at h
  · cases h
  · split at h
    · cases h
    · rename_i idx hidx
      split at h
      · cases h; omega
      · cases h
        have hd := List.length_drop (idx + 1) (strFrom s (strLen s - 253))
        omega

/-- C8 (corrected).  `truncateFQDN` is a contraction up to the one boundary
case the claim misses: a non-error output has length at most 253 unless the
input has length exactly 254 with a trailing dot, in which case the input
itself (length 254) is returned; and `truncateFQDN x` returns `x` unchanged
iff `len x ≤ 253`, or `len x = 254` with trailing dot, and `x` has no two
consecutive dots (no empty internal label). -/
theorem truncateFQDN_contraction_characterization :
    ∀ s : GoStr,
      (∀ out, truncateFQDN s = .ok out →
        out.length ≤ 253 ∨ (strLen s = 254 ∧ strIdx s 253 = 46 ∧ out = s)) ∧
      (truncateFQDN s = .ok s ↔
        ((strLen s ≤ 253 ∨ (strLen s = 254 ∧ strIdx s 253 = 46)) ∧ hasDotDot s = false)) := by
  intro s
  have hdd1 : ∀ a : Byte, hasDotDot [a] = false := by intro a; rfl
  by_cases hbr : strLen s < 254 ∨ ((strLen s == 254) = true ∧ (strIdx s (strLen s - 1) == 46) = true)
  · -- short branch
    have hsel : truncateFQDN s =
        (if (strLen s == 1) = true then .ok s
         else if hasDotDot s then .error (.invalidDomain s) else .ok s) := by
      simp only [truncateFQDN]
      rw [if_pos hbr]
    have hcnd : strLen s ≤ 253 ∨ (strLen s = 254 ∧ strIdx s 253 = 46) := by
      rcases hbr with h | ⟨h254, hdot⟩
      · exact Or.inl (by omega)
      · right
        simp at h254
        refine ⟨h254, ?_⟩
        simp at hdot
        rwa [h254] at hdot
    constructor
    · intro out hout
      rw [hsel] at hout
      split at hout
      · cases hout
        rcases hcnd with h | ⟨h254, hdot⟩
        · exact Or.inl h
        · exact Or.inr ⟨h254, hdot, rfl⟩
      · split at hout
        · cases hout
        · cases hout
          rcases hcnd with h | ⟨h254, hdot⟩
          · exact Or.inl h
          · exact Or.inr ⟨h254, hdot, rfl⟩
    · rw [hsel]
      constructor
      · intro hok
        split at hok
        · rename_i h1
          simp at h1
          refine ⟨hcnd, ?_⟩
          match s, h1 with
          | [a], _ => exact hdd1 a
        · split at hok
          · cases hok
          · rename_i hdd
            exact ⟨hcnd, by simpa using hdd⟩
      · rintro ⟨_, hdd⟩
        split
        · rfl
        · rw [if_neg (by simp [hdd])]
  · -- long branch
    have hlen : 254 ≤ strLen s := by
      by_contra h
      exact hbr (Or.inl (by omega))
    have hsel : truncateFQDN s = truncateLong s := by
      simp only [truncateFQDN]
      rw [if_neg hbr]
    constructor
    · intro out hout
      rw [hsel] at hout
      exact Or.inl (truncateLong_ok_len hlen hout)
    · rw [hsel]
      constructor
      · intro hok
        have := truncateLong_ok_len hlen hok
        have : strLen s ≤ 253 := by simpa [strLen] using this
        omega
      · rintro ⟨hcnd, _⟩
        exfalso
        rcases hcnd with h | ⟨h254, hdot⟩
        · omega
        · exact hbr (Or.inr (by simp [h254, hdot]))

/-- C8 counterexample: the 254-byte input `aaa…a.` (trailing dot) is a
non-error fixed point of `truncateFQDN` of length 254 > 253, refuting both
the `≤ 253` output bound and the "unchanged only if `len ≤ 253`" direction
of the claim as stated. -/
theorem truncateFQDN_254_counterexample :
    truncateFQDN ce8 = .ok ce8 ∧ strLen ce8 = 254 ∧ ¬ (strLen ce8 ≤ 253) := by
  decide

/-- C8 witness: the amended characterization applied to the concrete input
`example.com`. -/
theorem truncateFQDN_contraction_witness :
    truncateFQDN (gs "example.com") = .ok (gs "example.com") :=
  (truncateFQDN_contraction_characterization (gs "example.com")).2.mpr (by decide)

/-! ## C2: LimitedResolver lookup budget -/


theorem wrap32_eq_self {x : Int} (h1 : -2147483648 ≤ x) (h2 : x < 2147483648) :
    wrap32 x = x := by
  unfold wrap32
  rw [Int.emod_eq_of_lt (by omega) (by omega)]
  omega

theorem lrBudgeted_lookupLimit (st : LRState) (v : Bool) (i : Option Err) :
    ((lrBudgeted st v i).2).lookupLimit = wrap32 (st.lookupLimit - 1) := by
  simp only [lrBudgeted, canLookup, canPerformVoidLookup]
  split_ifs <;> rfl

theorem lrBudgeted_none_pos {st : LRState} {v : Bool} {i : Option Err}
    (h : (lrBudgeted st v i).1 = none) : 0 < wrap32 (st.lookupLimit - 1) := by
  simp only [lrBudgeted, canLookup, canPerformVoidLookup] at h
  split_ifs at h with h1 h2 h3
  all_goals simp_all

theorem lrBudgeted_exhausted {st : LRState} {v : Bool} {i : Option Err}
    (h : wrap32 (st.lookupLimit - 1) ≤ 0) :
    (lrBudgeted st v i).1 = some .dnsLimitExceeded := by
  simp only [lrBudgeted, canLookup, canPerformVoidLookup]
  rw [if_pos]
  simp
  omega

theorem lrStep_txt {st : LRState} {c : Call} (h : c.op = .txt) :
    lrStep st c = (c.inner, st) := by
  simp [lrStep, h, lrLookupTXT]

theorem lrStep_nonTxt {st : LRState} {c : Call} (h : c.op ≠ .txt) :
    lrStep st c = lrBudgeted st c.void c.inner := by
  cases hc : c.op <;> simp_all [lrStep]

/-- One budget-consuming step in explicit coordinates. -/
theorem lrStep_matchIP (v w : Int) :
    lrStep ⟨v, w⟩ ⟨.matchIP, false, none⟩ =
      (if 0 < wrap32 (v - 1) then none else some .dnsLimitExceeded,
        ⟨wrap32 (v - 1), w⟩) := by
  by_cases h : 0 < wrap32 (v - 1) <;>
    simp [lrStep, lrBudgeted, canLookup, h]

/-- A run of budget-consuming calls while the counter is positive and
cannot wrap: every call completes without error. -/
theorem lrOkCount_success_run :
    ∀ (n : Nat) (v w : Int) (rest : List Call), (n : Int) < v → v ≤ 2147483648 →
      lrOkCount ⟨v, w⟩ (List.replicate n ⟨.matchIP, false, none⟩ ++ rest) =
        n + lrOkCount ⟨v - n, w⟩ rest := by
  intro n
  induction n with
  | zero =>
    intro v w rest h1 h2
    simp
  | succ m ih =>
    intro v w rest h1 h2
    rw [List.replicate_succ, List.cons_append]
    have hw : wrap32 (v - 1) = v - 1 := wrap32_eq_self (by omega) (by omega)
    simp only [lrOkCount, lrStep_matchIP, hw]
    rw [if_pos (show (0 : Int) < v - 1 from by omega)]
    rw [if_pos (show OpKind.matchIP ≠ OpKind.txt ∧ (none : Option Err) = none from
      ⟨by decide, rfl⟩)]
    rw [ih (v - 1) w rest (by omega) (by omega)]
    have hv : v - 1 - (m : Int) = v - ((m + 1 : Nat) : Int) := by push_cast; ring
    rw [hv]
    omega

/-- A run of budget-consuming calls while the counter is at most 1 and
cannot wrap: every call fails with the limit error. -/
theorem lrOkCount_fail_run :
    ∀ (n : Nat) (v w : Int) (rest : List Call), v ≤ 1 → -2147483648 ≤ v - n →
      lrOkCount ⟨v, w⟩ (List.replicate n ⟨.matchIP, false, none⟩ ++ rest) =
        lrOkCount ⟨v - n, w⟩ rest := by
  intro n
  induction n with
  | zero =>
    intro v w rest h1 h2
    simp
  | succ m ih =>
    intro v w rest h1 h2
    rw [List.replicate_succ, List.cons_append]
    have hw : wrap32 (v - 1) = v - 1 := wrap32_eq_self (by omega) (by omega)
    simp only [lrOkCount, lrStep_matchIP, hw]
    rw [if_neg (show ¬ (0 : Int) < v - 1 from by omega)]
    rw [if_neg (show
      ¬ (OpKind.matchIP ≠ OpKind.txt ∧ (some Err.dnsLimitExceeded : Option Err) = none) from
      by simp)]
    rw [ih (v - 1) w rest (by omega) (by omega)]
    have hv : v - 1 - (m : Int) = v - ((m + 1 : Nat) : Int) := by push_cast; ring
    rw [hv]
    omega

/-- The wrapping step itself: decrementing the counter below the minimum
`int32` wraps it to the maximum, which is positive, so the call is admitted
again. -/
theorem lrOkCount_wrap_step (w : Int) (rest : List Call) :
    lrOkCount ⟨-2147483648, w⟩ (⟨.matchIP, false, none⟩ :: rest) =
      1 + lrOkCount ⟨2147483647, w⟩ rest := by
  have hw : wrap32 (-2147483648 - 1) = 2147483647 := by decide
  have hs : lrStep ⟨-2147483648, w⟩ ⟨.matchIP, false, none⟩ = (none, ⟨2147483647, w⟩) := by
    rw [lrStep_matchIP, hw]
    norm_num
  simp only [lrOkCount, hs]
  simp

/-- C2 counterexample: the original claim's "at most 10 error-free
budget-consuming calls over every sequence" fails.  Nine calls succeed,
2^31 + 1 further calls drive the `int32` counter down to its minimum, and
then the wrap re-admits lookups: the next three calls all succeed, for
twelve error-free budget-consuming calls in one sequence. -/
theorem limitedResolver_budget_counterexample :
    10 < lrOkCount lrInit
      (List.replicate 9 ⟨.matchIP, false, none⟩ ++
        (List.replicate 2147483649 ⟨.matchIP, false, none⟩ ++
          ⟨.matchIP, false, none⟩ :: (List.replicate 2 ⟨.matchIP, false, none⟩ ++ []))) := by
  have h0 : lrInit = (⟨10, 2⟩ : LRState) := rfl
  rw [h0, lrOkCount_success_run 9 10 2 _ (by norm_num) (by norm_num)]
  rw [show (10 : Int) - ((9 : Nat) : Int) = 1 from by norm_num]
  rw [lrOkCount_fail_run 2147483649 1 2 _ (by norm_num) (by norm_num)]
  rw [show (1 : Int) - ((2147483649 : Nat) : Int) = -2147483648 from by norm_num]
  rw [lrOkCount_wrap_step]
  rw [lrOkCount_success_run 2 2147483647 2 [] (by norm_num) (by norm_num)]
  norm_num [lrOkCount]

theorem lrFinal_lookupLimit :
    ∀ (calls : List Call) (st : LRState),
      -2147483648 ≤ st.lookupLimit - calls.countP (fun c => decide (c.op ≠ .txt)) →
      st.lookupLimit ≤ 2147483648 →
      (lrFinal st calls).lookupLimit =
        st.lookupLimit - (calls.countP (fun c => decide (c.op ≠ .txt)) : Int) := by
  intro calls
  induction calls with
  | nil => intro st h1 h2; simp [lrFinal]
  | cons c rest ih =>
    intro st h1 h2
    by_cases h : c.op = OpKind.txt
    · have hc : List.countP (fun c => decide (c.op ≠ OpKind.txt)) (c :: rest) =
          List.countP (fun c => decide (c.op ≠ OpKind.txt)) rest := by
        simp [List.countP_cons, h]
      rw [hc] at h1 ⊢
      simp only [lrFinal, lrStep_txt h]
      exact ih st h1 h2
    · have hc : List.countP (fun c => decide (c.op ≠ OpKind.txt)) (c :: rest) =
          List.countP (fun c => decide (c.op ≠ OpKind.txt)) rest + 1 := by
        simp [List.countP_cons, h]
      rw [hc] at h1 ⊢
      simp only [lrFinal, lrStep_nonTxt h]
      have hw : wrap32 (st.lookupLimit - 1) = st.lookupLimit - 1 :=
        wrap32_eq_self (by omega) (by omega)
      have hL : ((lrBudgeted st c.void c.inner).2).lookupLimit = st.lookupLimit - 1 := by
        rw [lrBudgeted_lookupLimit, hw]
      have := ih ((lrBudgeted st c.void c.inner).2) (by rw [hL]; omega) (by rw [hL]; omega)
      rw [this, hL]
      push_cast
      ring

theorem lrOkCount_bound :
    ∀ (calls : List Call) (st : LRState),
      -2147483648 ≤ st.lookupLimit - calls.countP (fun c => decide (c.op ≠ .txt)) →
      st.lookupLimit ≤ 2147483648 →
      lrOkCount st calls ≤ (st.lookupLimit - 1).toNat := by
  intro calls
  induction calls with
  | nil => intro st h1 h2; simp [lrOkCount]
  | cons c rest ih =>
    intro st h1 h2
    by_cases h : c.op = OpKind.txt
    · have hc : List.countP (fun c => decide (c.op ≠ OpKind.txt)) (c :: rest) =
          List.countP (fun c => decide (c.op ≠ OpKind.txt)) rest := by
        simp [List.countP_cons, h]
      rw [hc] at h1
      simp only [lrOkCount, lrStep_txt h]
      rw [if_neg (by simp [h])]
      simpa using ih st h1 h2
    · have hc : List.countP (fun c => decide (c.op ≠ OpKind.txt)) (c :: rest) =
          List.countP (fun c => decide (c.op ≠ OpKind.txt)) rest + 1 := by
        simp [List.countP_cons, h]
      rw [hc] at h1
      have hw : wrap32 (st.lookupLimit - 1) = st.lookupLimit - 1 :=
        wrap32_eq_self (by omega) (by omega)
      have hL : ((lrStep st c).2).lookupLimit = st.lookupLimit - 1 := by
        rw [lrStep_nonTxt h, lrBudgeted_lookupLimit, hw]
      have ihs := ih (lrStep st c).2 (by rw [hL]; omega) (by rw [hL]; omega)
      rw [hL] at ihs
      by_cases he : (lrStep st c).1 = none
      · have hpos : 0 < st.lookupLimit - 1 := by
          rw [lrStep_nonTxt h] at he
          have := lrBudgeted_none_pos he
          rwa [hw] at this
        have hif : (if c.op ≠ OpKind.txt ∧ (lrStep st c).1 = none then 1 else 0) = 1 := by
          simp [h, he]
        simp only [lrOkCount, hif]
        omega
      · have hif : (if c.op ≠ OpKind.txt ∧ (lrStep st c).1 = none then 1 else 0) = 0 := by
          simp [he]
        simp only [lrOkCount, hif]
        omega

/-- C2 (amended).  With the default lookup limit of 10, over any sequence
whose number of budget-consuming (non-`LookupTXT`) calls is at most
2^31 + 10 — so the wrapping `int32` counter never wraps past its minimum —
at most 10 such calls (in fact at most 9) complete without error;
`LookupTXT` passes through without touching the budget; and once between 10
and 2^31 + 9 budget-consuming calls have been made, the next
budget-consuming call returns `ErrDNSLimitExceeded`.  On longer sequences
the counter wraps positive and lookups are admitted again. -/
theorem limitedResolver_budget :
    (∀ calls : List Call,
        calls.countP (fun c => decide (c.op ≠ .txt)) ≤ 2147483658 →
        lrOkCount lrInit calls ≤ 10) ∧
    (∀ (st : LRState) (c : Call), c.op = .txt → lrStep st c = (c.inner, st)) ∧
    (∀ (calls : List Call) (c : Call),
        10 ≤ calls.countP (fun c => decide (c.op ≠ .txt)) →
        calls.countP (fun c => decide (c.op ≠ .txt)) ≤ 2147483657 →
        c.op ≠ .txt →
        (lrStep (lrFinal lrInit calls) c).1 = some .dnsLimitExceeded) := by
  refine ⟨?_, ?_, ?_⟩
  · intro calls hlen
    have h10 : lrInit.lookupLimit = 10 := rfl
    have h := lrOkCount_bound calls lrInit (by rw [h10]; omega) (by rw [h10]; norm_num)
    have h9 : (lrInit.lookupLimit - 1).toNat = 9 := by decide
    omega
  · intro st c h
    exact lrStep_txt h
  · intro calls c h10c hlen h
    rw [lrStep_nonTxt h]
    apply lrBudgeted_exhausted
    have hinit : lrInit.lookupLimit = 10 := rfl
    have hfin := lrFinal_lookupLimit calls lrInit (by rw [hinit]; omega) (by rw [hinit]; norm_num)
    rw [hfin, hinit]
    rw [wrap32_eq_self (by omega) (by omega)]
    omega

/-- C2 witness: after ten budget-consuming calls the next budget-consuming
call fails with `ErrDNSLimitExceeded`, while `LookupTXT` passes through with
the state untouched. -/
theorem limitedResolver_budget_witness :
    lrOkCount lrInit (List.replicate 10 ⟨.matchIP, false, none⟩) ≤ 10 ∧
    lrStep lrInit ⟨.txt, false, none⟩ = (none, lrInit) ∧
    (lrStep (lrFinal lrInit (List.replicate 10 ⟨.matchIP, false, none⟩))
      ⟨.ptr, false, none⟩).1 = some .dnsLimitExceeded :=
  ⟨limitedResolver_budget.1 _ (by decide),
   limitedResolver_budget.2.1 lrInit ⟨.txt, false, none⟩ rfl,
   limitedResolver_budget.2.2 _ ⟨.ptr, false, none⟩ (by decide) (by decide) (by decide)⟩

/-! ## C9: the candidate pre-filter never drops a strict policy -/


theorem skipWSLoop_not_ws {s : GoStr} {i : Nat}
    (h : (strIdx s i == 32 || strIdx s i == 9) = false) :
    ∀ fuel maxIdx, skipWSLoop s fuel i maxIdx = i := by
  intro fuel maxIdx
  cases fuel with
  | zero => rfl
  | succ n =>
    simp only [skipWSLoop]
    rw [if_neg]
    simp [h]

theorem gs_vspf1 : gs "v=spf1" = [118, 61, 115, 112, 102, 49] := by decide

theorem gs_spf : gs "spf" = [115, 112, 102] := by decide

/-- Every string with the strict `v=spf1` prefix passes the loose candidate
scan: the state machine takes `v` at 0, `=` at 1, and finds `spf` at 2. -/
theorem vspf1_prefix_isCandidate (rest : GoStr) :
    IsSPFCandidate ([118, 61, 115, 112, 102, 49] ++ rest) = true := by
  set s : GoStr := [118, 61, 115, 112, 102, 49] ++ rest with hs
  have hlen : strLen s = rest.length + 6 := by simp [hs, strLen]
  have hlt : ¬ strLen s < 4 := by omega
  unfold IsSPFCandidate
  rw [if_neg hlt, hlen]
  show iscLoop s (rest.length + 2) (rest.length + 3 + 1) 0 0 = true
  -- iteration 1: StateInit finds the 'v' at index 0
  rw [iscLoop]
  have hi0 : (0 ≤ rest.length + 2) = True := by simp
  have hidx : goIndexAnyISC (strFrom s 0) = some 0 := by
    simp [hs, strFrom, goIndexAnyISC, iscCutSet]
  have hdec0 : decodeRune (strFrom s 0) = (118, 1) := by
    simp [hs, strFrom, decodeRune]
  simp only [hi0, if_true, hidx, hdec0, Nat.add_zero, Nat.zero_add]
  norm_num
  show iscLoop s (rest.length + 2) (rest.length + 2 + 1) 1 2 = true
  -- iteration 2: StateSep sees the '=' at index 1
  rw [iscLoop]
  have h1le : (1 ≤ rest.length + 2) = True := by simp
  have hsw1 : skipWhitespace s 1 (rest.length + 2) = some 1 := by
    have hstop := @skipWSLoop_not_ws s 1 (by simp [hs, strIdx])
    simp only [skipWhitespace, hstop]
    rw [if_neg (by omega)]
  have hdec1 : decodeRune (strFrom s 1) = (61, 1) := by
    simp [hs, strFrom, decodeRune]
  simp only [h1le, if_true, hsw1, hdec1]
  rw [if_pos (show ((61 : Nat) == 61 || (61 : Nat) == 58) = true from rfl)]
  show iscLoop s (rest.length + 2) (rest.length + 1 + 1) 2 3 = true
  -- iteration 3: StateSPF finds "spf" at index 2
  rw [iscLoop]
  have h2le : (2 ≤ rest.length + 2) = True := by simp
  have hsw2 : skipWhitespace s 2 (rest.length + 2) = some 2 := by
    have hstop := @skipWSLoop_not_ws s 2 (by simp [hs, strIdx])
    simp only [skipWhitespace, hstop]
    rw [if_neg (by omega)]
  have hpf : hasPrefixFold (strFrom s 2) (gs "spf") = true := by
    rw [gs_spf]
    unfold hasPrefixFold
    rw [if_neg (by simp [hs, strFrom, strLen])]
    simp [hs, strFrom, strSlice, goEqualFold, foldByte, strLen]
  simp only [h2le, if_true, hsw2, hpf]
  simp
  all_goals decide

/-- The strict test `HasSPFPrefix` pins the first six bytes and the
follower. -/
theorem hasSPFPrefix_shape {s : GoStr} (h : HasSPFPrefix s = true) :
    ∃ rest, s = [118, 61, 115, 112, 102, 49] ++ rest ∧
      (rest = [] ∨ ∃ c t, rest = c :: t ∧ (c = 32 ∨ c = 9)) := by
  unfold HasSPFPrefix at h
  split at h
  · cases h
  · split at h
    · refine ⟨[], ?_, Or.inl rfl⟩
      have : s = gs "v=spf1" := by simpa using h
      simpa [gs_vspf1] using this
    · split at h
      · cases h
      · rename_i hlt heq hws
        have hp : gs "v=spf1" <+: s := by
          simpa [goHasPrefix, List.isPrefixOf_iff_prefix] using h
        obtain ⟨rest, hrest⟩ := hp
        refine ⟨rest, by simpa [gs_vspf1] using hrest.symm, ?_⟩
        have hlen : 7 ≤ strLen s := by
          simp [strLen] at hlt heq ⊢
          omega
        have hrlen : rest ≠ [] := by
          intro hnil
          rw [hnil] at hrest
          have h6 : strLen (gs "v=spf1" ++ []) = 6 := by decide
          rw [hrest] at h6
          omega
        obtain ⟨c, t, hct⟩ : ∃ c t, rest = c :: t := by
          cases rest with
          | nil => exact absurd rfl hrlen
          | cons c t => exact ⟨c, t, rfl⟩
        refine Or.inr ⟨c, t, hct, ?_⟩
        have hc : strIdx s 6 = c := by
          rw [← hrest, gs_vspf1, hct]
          rfl
        simp at hws
        by_cases h32 : strIdx s 6 = 32
        · exact Or.inl (by rw [← hc]; exact h32)
        · exact Or.inr (by rw [← hc]; exact hws h32)

/-- Helper: a strict policy string passes the loose candidate test. -/
theorem hasSPFPrefix_candidate_aux : ∀ s, HasSPFPrefix s = true → IsSPFCandidate s = true := by
  intro s h
  obtain ⟨rest, hrest, -⟩ := hasSPFPrefix_shape h
  rw [hrest]
  exact vspf1_prefix_isCandidate rest

/-- Helper: every strict policy among the lines lands in the policies
slice. -/
theorem mem_policies_of_hasSPFPrefix :
    ∀ (lines : List GoStr) (s : GoStr), s ∈ lines → HasSPFPrefix s = true →
      s ∈ (FilterSPFCandidates lines).2 := by
  intro lines
  induction lines with
  | nil => intro s hs; cases hs
  | cons line restL ih =>
    intro s hs hpre
    rcases hsplit : FilterSPFCandidates restL with ⟨cands, pols⟩
    unfold FilterSPFCandidates
    rw [hsplit]
    rcases List.mem_cons.mp hs with heq | hmem
    · subst heq
      simp only [hasSPFPrefix_candidate_aux s hpre, hpre, Bool.not_true, Bool.false_eq_true,
        if_false, if_true]
      simp
    · have ihm := ih s hmem hpre
      rw [hsplit] at ihm
      by_cases hc1 : IsSPFCandidate line
      · by_cases hc2 : HasSPFPrefix line
        · simp [hc1, hc2, List.mem_cons]
          exact Or.inr ihm
        · simp [hc1, hc2]
          exact ihm
      · simp [hc1]
        exact ihm

/-- Helper: the policies slice is exactly the strict policies among the
lines. -/
theorem mem_policies_iff :
    ∀ (lines : List GoStr) (s : GoStr),
      s ∈ (FilterSPFCandidates lines).2 ↔ s ∈ lines ∧ HasSPFPrefix s = true := by
  intro lines s
  constructor
  · intro hmem
    induction lines with
    | nil => simp [FilterSPFCandidates] at hmem
    | cons line restL ih =>
      rcases hsplit : FilterSPFCandidates restL with ⟨cands, pols⟩
      rw [FilterSPFCandidates, hsplit] at hmem
      by_cases hc1 : IsSPFCandidate line
      · by_cases hc2 : HasSPFPrefix line
        · simp [hc1, hc2, List.mem_cons] at hmem
          rcases hmem with heq | hmem
          · subst heq; exact ⟨List.mem_cons_self _ _, hc2⟩
          · have := ih (by rw [hsplit]; exact hmem)
            exact ⟨List.mem_cons_of_mem _ this.1, this.2⟩
        · simp [hc1, hc2] at hmem
          have := ih (by rw [hsplit]; exact hmem)
          exact ⟨List.mem_cons_of_mem _ this.1, this.2⟩
      · simp [hc1] at hmem
        have := ih (by rw [hsplit]; exact hmem)
        exact ⟨List.mem_cons_of_mem _ this.1, this.2⟩
  · rintro ⟨hmem, hpre⟩
    exact mem_policies_of_hasSPFPrefix lines s hmem hpre

/-- C9.  Every strict `v=spf1` policy string is also a loose SPF candidate,
so `FilterSPFCandidates` puts every strict policy into the `policies`
slice - the candidate pre-filter never drops one. -/
theorem hasSPFPrefix_implies_candidate :
    (∀ s, HasSPFPrefix s = true → IsSPFCandidate s = true) ∧
    (∀ (lines : List GoStr) (s : GoStr), s ∈ lines → HasSPFPrefix s = true →
      s ∈ (FilterSPFCandidates lines).2) :=
  ⟨hasSPFPrefix_candidate_aux, mem_policies_of_hasSPFPrefix⟩

/-- C9 witness: the strict policy `v=spf1 -all` is a candidate and is kept
by the filter. -/
theorem hasSPFPrefix_implies_candidate_witness :
    IsSPFCandidate (gs "v=spf1 -all") = true ∧
    gs "v=spf1 -all" ∈ (FilterSPFCandidates [gs "not spf", gs "v=spf1 -all"]).2 :=
  ⟨hasSPFPrefix_implies_candidate.1 _ (by decide),
   hasSPFPrefix_implies_candidate.2 [gs "not spf", gs "v=spf1 -all"] _ (by decide) (by decide)⟩

/-! ## C4: strict policy selection and the TooManySPFRecords path -/


/-- Helper: the strict policy test, characterized as the spec words it. -/
theorem hasSPFPrefix_iff (s : GoStr) :
    HasSPFPrefix s = true ↔
      (s = gs "v=spf1" ∨ ∃ c rest, (c = 32 ∨ c = 9) ∧ s = gs "v=spf1" ++ c :: rest) := by
  constructor
  · intro h
    obtain ⟨rest, hrest, hws⟩ := hasSPFPrefix_shape h
    rcases hws with hnil | ⟨c, t, hct, hc⟩
    · subst hnil
      left
      simpa [gs_vspf1] using hrest
    · right
      exact ⟨c, t, hc, by rw [hrest, hct, gs_vspf1]⟩
  · rintro (heq | ⟨c, rest, hc, heq⟩)
    · subst heq; decide
    · subst heq
      rw [gs_vspf1]
      unfold HasSPFPrefix
      rw [if_neg (by simp only [strLen, List.length_append, List.length_cons]; omega),
        if_neg (by simp only [strLen, List.length_append, List.length_cons, beq_iff_eq]; omega)]
      have hidx : strIdx ([118, 61, 115, 112, 102, 49] ++ c :: rest) 6 = c := rfl
      rw [if_neg]
      · simp [goHasPrefix, gs_vspf1, List.isPrefixOf_iff_prefix]
      · rw [hidx]
        rcases hc with h32 | h9
        · simp [h32]
        · simp [h9]

/-- C4.  A TXT string counts as a policy exactly when it is `v=spf1`, or
begins with `v=spf1` immediately followed by a space or a tab (compared
case-sensitively); and a frame of `checkHost` whose TXT answer holds more
than one policy returns Permerror with `TooManySPFRecords`. -/
theorem policy_selection_strict :
    (∀ (lines : List GoStr) (s : GoStr),
      s ∈ (FilterSPFCandidates lines).2 ↔
        s ∈ lines ∧
          (s = gs "v=spf1" ∨ ∃ c rest, (c = 32 ∨ c = 9) ∧ s = gs "v=spf1" ++ c :: rest)) ∧
    (∀ (fuel : Nat) (env : DNSEnv) (ctx : Pctx) (vis : List GoStr) (ip : IP)
        (domain sender : GoStr),
      isDomainName domain = true →
      vis.contains (NormalizeFQDN domain) = false →
      (env.txtStrict (NormalizeFQDN domain)).2.2 = none →
      1 < (FilterSPFCandidates (env.txtStrict (NormalizeFQDN domain)).1).2.length →
      checkHost (fuel + 1) env ctx vis ip domain sender =
        ((.Permerror, [], [],
          some (NewSpfError .validation
            (.tooManySPFRecords domain
              (FilterSPFCandidates (env.txtStrict (NormalizeFQDN domain)).1).2) none)), vis)) := by
  constructor
  · intro lines s
    rw [mem_policies_iff lines s, hasSPFPrefix_iff s]
  · intro fuel env ctx vis ip domain sender hdom hvis herr hpol
    rcases henv : env.txtStrict (NormalizeFQDN domain) with ⟨txts, extras, err⟩
    rw [henv] at herr hpol
    simp only at herr hpol
    subst herr
    rcases hfil : FilterSPFCandidates txts with ⟨cands, pols⟩
    rw [hfil] at hpol
    simp only at hpol
    simp only [checkHost, henv, hfil]
    rw [if_neg (by simp [hdom]), if_neg (by rw [hvis]; simp)]
    rw [if_neg (by simp only [beq_iff_eq]; omega)]
    rw [if_pos (by omega)]

/-- C4 witness: a domain whose TXT RRset carries two `v=spf1` records gives
Permerror with `TooManySPFRecords`, and the strict-policy characterization
applied to its records. -/
theorem policy_selection_strict_witness :
    (gs "v=spf1 -all" ∈
      (FilterSPFCandidates [gs "v=spf1 -all", gs "v=spf1 ~all"]).2 ↔
        gs "v=spf1 -all" ∈ ([gs "v=spf1 -all", gs "v=spf1 ~all"] : List GoStr) ∧
          (gs "v=spf1 -all" = gs "v=spf1" ∨
            ∃ c rest, (c = 32 ∨ c = 9) ∧ gs "v=spf1 -all" = gs "v=spf1" ++ c :: rest)) ∧
    checkHost 1 envTwoPolicies ctxW [] [10, 11, 12, 13] (gs "two.org") (gs "a@two.org") =
      ((.Permerror, [], [],
        some (NewSpfError .validation
          (.tooManySPFRecords (gs "two.org")
            (FilterSPFCandidates
              (envTwoPolicies.txtStrict (NormalizeFQDN (gs "two.org"))).1).2) none)), []) :=
  ⟨policy_selection_strict.1 [gs "v=spf1 -all", gs "v=spf1 ~all"] (gs "v=spf1 -all"),
   policy_selection_strict.2 0 envTwoPolicies ctxW [] [10, 11, 12, 13] (gs "two.org")
     (gs "a@two.org") (by decide) (by decide) (by decide) (by decide)⟩

/-! ## C3: loop detection and visited-stack balance -/


theorem parseInclude_vis {rec : CheckHostFn} {env : DNSEnv} {ctx : Pctx} {t : Token}
    {vis : List GoStr}
    (h : ∀ env ctx vis ip d s, (rec env ctx vis ip d s).2 = vis) :
    (parseInclude rec env ctx t vis).2 = vis := by
  unfold parseInclude
  rcases hip : includePreprocess ctx t with ⟨domain, err⟩
  cases err with
  | some e => simp
  | none =>
    simp only
    split
    · rfl
    · rcases hr : rec env ctx vis ctx.ip domain ctx.sender with ⟨res, vis'⟩
      have hv : vis' = vis := by
        have := h env ctx vis ctx.ip domain ctx.sender
        rw [hr] at this
        exact this
      rcases res with ⟨r, e1, e2, e3⟩
      cases r <;> simp [hv]

theorem handleRedirect_vis {rec : CheckHostFn} {env : DNSEnv} {ctx : Pctx} {t? : Option Token}
    {vis : List GoStr}
    (h : ∀ env ctx vis ip d s, (rec env ctx vis ip d s).2 = vis) :
    (handleRedirect rec env ctx t? vis).2 = vis := by
  unfold handleRedirect
  cases t? with
  | none => rfl
  | some t =>
    simp only
    rcases hp : ptrPreprocess ctx t.value with ⟨domain, err⟩
    cases err with
    | some e => simp
    | none =>
      simp only
      rcases hr : rec env ctx vis ctx.ip domain ctx.sender with ⟨res, vis'⟩
      have hv : vis' = vis := by
        have := h env ctx vis ctx.ip domain ctx.sender
        rw [hr] at this
        exact this
      rcases res with ⟨r, e1, e2, e3⟩
      cases e3 <;> simp [hv] <;> split <;> simp [hv]

theorem evalStep_vis {rec : CheckHostFn} {env : DNSEnv} {ctx : Pctx} {t : Token}
    {r : Result} {e : Option Err} {vis : List GoStr}
    (h : ∀ env ctx vis ip d s, (rec env ctx vis ip d s).2 = vis) :
    (evalStep rec env ctx t r e vis).2 = vis := by
  unfold evalStep
  split_ifs <;> first | rfl | exact parseInclude_vis h

theorem obsStep_vis {rec : CheckHostFn} {env : DNSEnv} {ctx : Pctx} {t : Token}
    {r : Result} {e : Option Err} {vis : List GoStr}
    (h : ∀ env ctx vis ip d s, (rec env ctx vis ip d s).2 = vis) :
    (obsStep rec env ctx t r e vis).2 = vis := by
  unfold obsStep
  split_ifs with h1 h2
  · rcases hr : handleRedirect rec env ctx (some t) vis with ⟨⟨rr, ee⟩, v⟩
    have hv := @handleRedirect_vis rec env ctx (some t) vis h
    rw [hr] at hv
    simp only [hr]
    exact hv
  · rfl
  · exact evalStep_vis h

theorem evalLoop_vis {rec : CheckHostFn} {env : DNSEnv} {ctx : Pctx} {expl : Option Token}
    (h : ∀ env ctx vis ip d s, (rec env ctx vis ip d s).2 = vis) :
    ∀ (ts : List Token) (all : Bool) (r : Result) (e : Option Err) (vis : List GoStr),
      (evalLoop rec env ctx expl ts all r e vis).vis = vis := by
  intro ts
  induction ts with
  | nil => intros; rfl
  | cons t rest ih =>
    intro all r e vis
    unfold evalLoop
    rcases hstep : evalStep rec env ctx t r e vis with ⟨⟨mtch, r', e'⟩, vis'⟩
    have hv : vis' = vis := by
      have := @evalStep_vis rec env ctx t r e vis h
      rw [hstep] at this
      exact this
    simp only
    split
    · simp [EvalOut.vis, hv]
    · rw [ih]
      exact hv

theorem obsLoop_vis {rec : CheckHostFn} {env : DNSEnv} {ctx : Pctx}
    (h : ∀ env ctx vis ip d s, (rec env ctx vis ip d s).2 = vis) :
    ∀ (ts : List Token) (r : Result) (e : Option Err) (vis : List GoStr),
      (obsLoop rec env ctx ts r e vis).2 = vis := by
  intro ts
  induction ts with
  | nil => intros; rfl
  | cons t rest ih =>
    intro r e vis
    rcases hstep : obsStep rec env ctx t r e vis with ⟨⟨mtch, r', e'⟩, vis'⟩
    have hv : vis' = vis := by
      have := @obsStep_vis rec env ctx t r e vis h
      rw [hstep] at this
      exact this
    unfold obsLoop
    rw [hstep]
    simp only
    cases hsa : ctx.stopAtError with
    | none => dsimp only; rw [ih]; exact hv
    | some stop =>
      dsimp only
      by_cases hstop : stop e' = true
      · rw [if_pos hstop]
        exact hv
      · rw [if_neg hstop]
        rw [ih]; exact hv

theorem evaluate_vis {rec : CheckHostFn} {env : DNSEnv} {ctx : Pctx} {tokens : List Token}
    {vis : List GoStr}
    (h : ∀ env ctx vis ip d s, (rec env ctx vis ip d s).2 = vis) :
    (evaluate rec env ctx tokens vis).2 = vis := by
  unfold evaluate
  rcases hs : sortTokens tokens with ⟨mechs, redirect, expl, unk, errS⟩
  cases errS with
  | some e => simp
  | none =>
    simp only
    have hv := @evalLoop_vis rec env ctx expl h mechs false .Neutral none vis
    cases hloop : evalLoop rec env ctx expl mechs false .Neutral none vis with
    | matched r s e vis' =>
      rw [hloop] at hv
      simp only [EvalOut.vis] at hv
      simp [hv]
    | fell all r e vis' =>
      rw [hloop] at hv
      simp only [EvalOut.vis] at hv
      simp only
      split
      · rcases hred : handleRedirect rec env ctx redirect vis' with ⟨⟨rr, ee⟩, v⟩
        have hrv := @handleRedirect_vis rec env ctx redirect vis' h
        rw [hred] at hrv
        simp only at hrv
        simp [hred, hrv, hv]
      · simpa using hv

theorem observe_vis {rec : CheckHostFn} {env : DNSEnv} {ctx : Pctx} {tokens : List Token}
    {vis : List GoStr}
    (h : ∀ env ctx vis ip d s, (rec env ctx vis ip d s).2 = vis) :
    (observe rec env ctx tokens vis).2 = vis := by
  unfold observe
  rcases hs : sortTokens tokens with ⟨mechs, redirect, expl, unk, errS⟩
  cases errS with
  | some e => simp
  | none => simpa using obsLoop_vis h tokens .Neutral none vis

theorem check_vis {rec : CheckHostFn} {env : DNSEnv} {ctx : Pctx} {q : GoStr}
    {vis : List GoStr}
    (h : ∀ env ctx vis ip d s, (rec env ctx vis ip d s).2 = vis) :
    (check rec env ctx q vis).2 = vis := by
  unfold check
  simp only
  by_cases hm : ctx.ignoreMatches
  · simp only [hm, if_true]
    rcases hobs : observe rec env ctx (lex q) (vis ++ [ctx.domain]) with ⟨res, vis2⟩
    have hv := @observe_vis rec env ctx (lex q) (vis ++ [ctx.domain]) h
    rw [hobs] at hv
    simp only at hv
    simp [hobs, hv]
  · simp only [hm, if_false]
    rcases hev : evaluate rec env ctx (lex q) (vis ++ [ctx.domain]) with ⟨res, vis2⟩
    have hv := @evaluate_vis rec env ctx (lex q) (vis ++ [ctx.domain]) h
    rw [hev] at hv
    simp only at hv
    simp [hev, hv]

theorem checkHost_vis :
    ∀ (fuel : Nat) (env : DNSEnv) (ctx : Pctx) (vis : List GoStr) (ip : IP)
      (domain sender : GoStr),
      (checkHost fuel env ctx vis ip domain sender).2 = vis := by
  intro fuel
  induction fuel with
  | zero => intros; rfl
  | succ n ih =>
    intro env ctx vis ip domain sender
    unfold checkHost
    split
    · rfl
    · split
      · rfl
      · rcases henv : env.txtStrict (NormalizeFQDN domain) with ⟨txts, extras, err⟩
        simp only
        cases err with
        | some e => cases e <;> rfl
        | none =>
          simp only
          rcases hfil : FilterSPFCandidates txts with ⟨cands, pols⟩
          simp only
          split
          · rfl
          · split
            · rfl
            · rcases hch : check (checkHost n) env
                { ctx with sender := sender, domain := domain, ip := ip }
                (pols.headD []) vis with ⟨res, vis'⟩
              have hv := @check_vis (checkHost n) env
                { ctx with sender := sender, domain := domain, ip := ip }
                (pols.headD []) vis
                (fun env ctx vis ip d s => ih env ctx vis ip d s)
              rw [hch] at hv
              simp only at hv
              simp [hch, hv]

/-- C3.  Re-entering `checkHost` with a domain whose normalized form is
already on the visited stack stops the recursion with Permerror /
`LoopDetected`; and every frame leaves the shared visited stack exactly as
it found it (push on entry, pop on exit, on all paths). -/
theorem visited_stack_discipline :
    (∀ (fuel : Nat) (env : DNSEnv) (ctx : Pctx) (vis : List GoStr) (ip : IP)
        (domain sender : GoStr),
      isDomainName domain = true →
      vis.contains (NormalizeFQDN domain) = true →
      checkHost (fuel + 1) env ctx vis ip domain sender =
        ((.Permerror, [], [], some (NewSpfError .validation .loopDetected none)), vis)) ∧
    (∀ (fuel : Nat) (env : DNSEnv) (ctx : Pctx) (vis : List GoStr) (ip : IP)
        (domain sender : GoStr),
      (checkHost fuel env ctx vis ip domain sender).2 = vis) := by
  constructor
  · intro fuel env ctx vis ip domain sender hdom hvis
    simp only [checkHost]
    rw [if_neg (by simp [hdom]), if_pos hvis]
  · exact checkHost_vis

/-- C3 witness: a frame entered on `matching.com` with `matching.com.`
already on the stack returns Permerror / `LoopDetected`, and a concrete
frame leaves the stack unchanged. -/
theorem visited_stack_discipline_witness :
    checkHost 1 envEmpty ctxW [gs "matching.com."] [10, 11, 12, 13] (gs "matching.com")
        (gs "a@matching.com") =
      ((.Permerror, [], [], some (NewSpfError .validation .loopDetected none)),
        [gs "matching.com."]) ∧
    (checkHost 3 envEmpty ctxW [gs "other.org."] [10, 11, 12, 13] (gs "matching.com")
        (gs "a@matching.com")).2 = [gs "other.org."] :=
  ⟨visited_stack_discipline.1 0 envEmpty ctxW [gs "matching.com."] [10, 11, 12, 13]
      (gs "matching.com") (gs "a@matching.com") (by decide) (by decide),
   visited_stack_discipline.2 3 envEmpty ctxW [gs "other.org."] [10, 11, 12, 13]
      (gs "matching.com") (gs "a@matching.com")⟩

end Spf

namespace Spf

/-- `parseAll` always reports a match. -/
theorem parseAll_match (t : Token) : (parseAll t).1 = true := by
  unfold parseAll
  rcases hm : matchingResult t.qualifier with ⟨r0, e0⟩
  cases e0 <;> simp [hm]

/-- C1.  Under successful preprocessing of the include target, the include
mechanism's outcome is a function of the recursive `checkHost` result per
the RFC 7208 §5.2 table: Pass → match with the qualifier's result;
Fail/Softfail/Neutral → no match; Temperror → match with Temperror;
Permerror or None → match with Permerror. -/
theorem include_child_table (fuel : Nat) (env : DNSEnv) (ctx : Pctx) (t : Token)
    (vis : List GoStr)
    (_hq : t.qualifier = qPlus ∨ t.qualifier = qMinus ∨ t.qualifier = qTilde ∨
      t.qualifier = qQuestionMark)
    (hpre : (includePreprocess ctx t).2 = none)
    (hdom : (includePreprocess ctx t).1 ≠ []) :
    ((checkHost fuel env ctx vis ctx.ip (includePreprocess ctx t).1 ctx.sender).1.1 = .Pass →
      (parseInclude (checkHost fuel) env ctx t vis).1.1 = true ∧
      (parseInclude (checkHost fuel) env ctx t vis).1.2.1 = (matchingResult t.qualifier).1) ∧
    (((checkHost fuel env ctx vis ctx.ip (includePreprocess ctx t).1 ctx.sender).1.1 = .Fail ∨
      (checkHost fuel env ctx vis ctx.ip (includePreprocess ctx t).1 ctx.sender).1.1 = .Softfail ∨
      (checkHost fuel env ctx vis ctx.ip (includePreprocess ctx t).1 ctx.sender).1.1 = .Neutral) →
      (parseInclude (checkHost fuel) env ctx t vis).1.1 = false ∧
      (parseInclude (checkHost fuel) env ctx t vis).1.2.1 = .None) ∧
    ((checkHost fuel env ctx vis ctx.ip (includePreprocess ctx t).1 ctx.sender).1.1 = .Temperror →
      (parseInclude (checkHost fuel) env ctx t vis).1.1 = true ∧
      (parseInclude (checkHost fuel) env ctx t vis).1.2.1 = .Temperror) ∧
    (((checkHost fuel env ctx vis ctx.ip (includePreprocess ctx t).1 ctx.sender).1.1 = .Permerror ∨
      (checkHost fuel env ctx vis ctx.ip (includePreprocess ctx t).1 ctx.sender).1.1 = .None) →
      (parseInclude (checkHost fuel) env ctx t vis).1.1 = true ∧
      (parseInclude (checkHost fuel) env ctx t vis).1.2.1 = .Permerror) := by
  rcases hip : includePreprocess ctx t with ⟨domain, err⟩
  rw [hip] at hpre hdom
  simp only at hpre hdom
  subst hpre
  simp only [hip]
  have hout : parseInclude (checkHost fuel) env ctx t vis =
      (let ((theirResult, _, _, errC), vis') :=
        checkHost fuel env ctx vis ctx.ip domain ctx.sender
      let err' := match errC with
        | none => (none : Option Err)
        | some e => some (wrapErr t e)
      match theirResult with
      | .Pass => ((true, (matchingResult t.qualifier).1, err'), vis')
      | .Fail => ((false, .None, err'), vis')
      | .Softfail => ((false, .None, err'), vis')
      | .Neutral => ((false, .None, err'), vis')
      | .Temperror => ((true, .Temperror, err'), vis')
      | .None => ((true, .Permerror, err'), vis')
      | .Permerror => ((true, .Permerror, err'), vis')
      | .unreliableResult => ((true, .Permerror, some .unreliableResultErr), vis')
      | .internalError => ((true, .Permerror, some .unknownResult), vis')) := by
    unfold parseInclude
    rw [hip]
    simp only
    rw [if_neg (by simpa using hdom)]
  rcases hch : checkHost fuel env ctx vis ctx.ip domain ctx.sender with ⟨⟨res, e1, e2, e3⟩, vis'⟩
  rw [hch] at hout
  simp only at hout
  refine ⟨?_, ?_, ?_, ?_⟩
  · intro hr
    simp only at hr
    subst hr
    simp [hout]
  · intro hr
    simp only at hr
    rcases hr with hr | hr | hr <;> (subst hr; simp [hout])
  · intro hr
    simp only at hr
    subst hr
    simp [hout]
  · intro hr
    simp only at hr
    rcases hr with hr | hr <;> (subst hr; simp [hout])

/-- C1 witness: `include:other.org` whose child check returns Temperror is
a match carrying Temperror. -/
theorem include_child_table_witness :
    (parseInclude (checkHost 1) envTemp ctxW tokInclude []).1.1 = true ∧
    (parseInclude (checkHost 1) envTemp ctxW tokInclude []).1.2.1 = .Temperror :=
  (include_child_table 1 envTemp ctxW tokInclude []
    (by decide) (by decide) (by decide)).2.2.1 (by decide)

/-- Falling off the mechanism loop means every mechanism (in particular any
`all`) failed to match; since `all` always matches, none was present. -/
theorem evalLoop_fell_no_all {rec : CheckHostFn} {env : DNSEnv} {ctx : Pctx}
    {expl : Option Token} :
    ∀ (ts : List Token) (all0 : Bool) (r0 : Result) (e0 : Option Err) (vis : List GoStr)
      (a : Bool) (r : Result) (e : Option Err) (vis' : List GoStr),
      evalLoop rec env ctx expl ts all0 r0 e0 vis = .fell a r e vis' →
      ∀ t ∈ ts, t.mechanism ≠ tAll := by
  intro ts
  induction ts with
  | nil => intro all0 r0 e0 vis a r e vis' _ t ht; cases ht
  | cons t rest ih =>
    intro all0 r0 e0 vis a r e vis' hfell t' ht'
    rcases hstep : evalStep rec env ctx t r0 e0 vis with ⟨⟨mtch, r1, e1⟩, vis1⟩
    unfold evalLoop at hfell
    rw [hstep] at hfell
    simp only at hfell
    by_cases hm : mtch = true
    · rw [if_pos hm] at hfell
      cases hfell
    · rw [if_neg hm] at hfell
      rcases List.mem_cons.mp ht' with heq | hmem
      · subst heq
        intro hall
        apply hm
        have hstep' : evalStep rec env ctx t' r0 e0 vis = (parseAll t', vis) := by
          unfold evalStep
          rw [if_neg (by simp [hall, tVersion, tAll]), if_pos (by simp [hall])]
        rw [hstep'] at hstep
        have hpm := parseAll_match t'
        have hfst := congrArg (fun p => p.1.1) hstep
        simp only at hfst
        exact hfst ▸ hpm
      · exact ih _ _ _ _ _ _ _ _ hfell t' hmem

/-- C6.  The redirect modifier is consulted only on loop fall-through, which
entails that no `all` mechanism was present; and a non-nil redirect whose
preprocessing succeeds maps a child-check error, or a child result of None
or Permerror, to Permerror (RFC 7208 §6.1). -/
theorem redirect_guard_and_mapping :
    (∀ (rec : CheckHostFn) (env : DNSEnv) (ctx : Pctx) (expl : Option Token)
        (ts : List Token) (all0 : Bool) (r0 : Result) (e0 : Option Err) (vis : List GoStr)
        (a : Bool) (r : Result) (e : Option Err) (vis' : List GoStr),
      evalLoop rec env ctx expl ts all0 r0 e0 vis = .fell a r e vis' →
      ∀ t ∈ ts, t.mechanism ≠ tAll) ∧
    (∀ (rec : CheckHostFn) (env : DNSEnv) (ctx : Pctx) (t : Token) (vis : List GoStr),
      (ptrPreprocess ctx t.value).2 = none →
      ((rec env ctx vis ctx.ip (ptrPreprocess ctx t.value).1 ctx.sender).1.2.2.2 ≠ none →
        (handleRedirect rec env ctx (some t) vis).1.1 = .Permerror) ∧
      ((rec env ctx vis ctx.ip (ptrPreprocess ctx t.value).1 ctx.sender).1.2.2.2 = none →
        ((rec env ctx vis ctx.ip (ptrPreprocess ctx t.value).1 ctx.sender).1.1 = .None ∨
         (rec env ctx vis ctx.ip (ptrPreprocess ctx t.value).1 ctx.sender).1.1 = .Permerror) →
        (handleRedirect rec env ctx (some t) vis).1.1 = .Permerror)) := by
  constructor
  · intro rec env ctx expl ts all0 r0 e0 vis a r e vis' hfell
    exact evalLoop_fell_no_all ts all0 r0 e0 vis a r e vis' hfell
  · intro rec env ctx t vis hpre
    rcases hp : ptrPreprocess ctx t.value with ⟨domain, err⟩
    rw [hp] at hpre
    simp only at hpre
    subst hpre
    simp only [hp]
    rcases hch : rec env ctx vis ctx.ip domain ctx.sender with ⟨⟨res, x1, x2, e3⟩, vis'⟩
    have hred : handleRedirect rec env ctx (some t) vis =
        (match e3 with
         | some e => ((.Permerror, some e), vis')
         | none =>
           if res == .None || res == .Permerror then ((.Permerror, none), vis')
           else ((res, none), vis')) := by
      unfold handleRedirect
      dsimp only
      rw [hp]
      dsimp only
      simp only [hch]
      cases e3 <;> rfl
    constructor
    · intro he
      simp only at he
      cases e3 with
      | none => exact absurd rfl he
      | some e => simp [hred]
    · intro he hr
      simp only at he
      subst he
      simp only at hr
      rcases hr with hr | hr <;> (subst hr; simp [hred])

/-- C6 witness: with no `all` among the mechanisms the loop falls through,
and a redirect whose child check errors (invalid policy domain) yields
Permerror. -/
theorem redirect_guard_and_mapping_witness :
    (∀ t ∈ ([tokVersion] : List Token), t.mechanism ≠ tAll) ∧
    (handleRedirect (checkHost 1) envEmpty ctxW (some tokRedirect) []).1.1 = .Permerror :=
  ⟨redirect_guard_and_mapping.1 (checkHost 1) envEmpty ctxW none [tokVersion]
      false .Neutral none [] false .None none [] (by decide),
   (redirect_guard_and_mapping.2 (checkHost 1) envEmpty ctxW tokRedirect [] (by decide)).1
      (by decide)⟩

/-- The `all` flag stays false over mechanisms that contain no `all`. -/
theorem evalLoop_flag_false {rec : CheckHostFn} {env : DNSEnv} {ctx : Pctx}
    {expl : Option Token} :
    ∀ (ts : List Token) (r0 : Result) (e0 : Option Err) (vis : List GoStr)
      (a : Bool) (r : Result) (e : Option Err) (vis' : List GoStr),
      (∀ t ∈ ts, t.mechanism ≠ tAll) →
      evalLoop rec env ctx expl ts false r0 e0 vis = .fell a r e vis' →
      a = false := by
  intro ts
  induction ts with
  | nil =>
    intro r0 e0 vis a r e vis' _ hfell
    cases hfell
    rfl
  | cons t rest ih =>
    intro r0 e0 vis a r e vis' hno hfell
    rcases hstep : evalStep rec env ctx t r0 e0 vis with ⟨⟨mtch, r1, e1⟩, vis1⟩
    unfold evalLoop at hfell
    rw [hstep] at hfell
    simp only at hfell
    have hne : ¬ ((t.mechanism == tAll) = true) := by
      simpa using hno t (List.mem_cons_self t rest)
    rw [if_neg hne] at hfell
    by_cases hm : mtch = true
    · rw [if_pos hm] at hfell
      cases hfell
    · rw [if_neg hm] at hfell
      exact ih _ _ _ _ _ _ _ (fun t' ht' => hno t' (List.mem_cons_of_mem _ ht')) hfell

/-- C10.  A syntactically valid policy in default evaluation whose
mechanisms all fail to match, with no `all` mechanism and no redirect
modifier, evaluates to Neutral with an empty explanation and no error. -/
theorem evaluate_neutral_fallthrough (rec : CheckHostFn) (env : DNSEnv) (ctx : Pctx)
    (tokens : List Token) (vis : List GoStr) (mechs : List Token)
    (expl : Option Token) (unk : List Token)
    (hsort : sortTokens tokens = (mechs, none, expl, unk, none))
    (hnoall : ∀ t ∈ mechs, t.mechanism ≠ tAll)
    (a : Bool) (r : Result) (e : Option Err) (vis' : List GoStr)
    (hfell : evalLoop rec env ctx expl mechs false .Neutral none vis = .fell a r e vis') :
    evaluate rec env ctx tokens vis = ((.Neutral, [], none), vis') := by
  have ha : a = false := evalLoop_flag_false mechs .Neutral none vis a r e vis' hnoall hfell
  subst ha
  unfold evaluate
  rw [hsort]
  simp only
  rw [hfell]
  simp [handleRedirect]

/-- C10 witness: the policy consisting of the version token alone falls
through and evaluates to Neutral. -/
theorem evaluate_neutral_fallthrough_witness :
    evaluate (checkHost 1) envEmpty ctxW [tokVersion] [] = ((.Neutral, [], none), []) :=
  evaluate_neutral_fallthrough (checkHost 1) envEmpty ctxW [tokVersion] [] [tokVersion]
    none [] (by decide) (by decide) false .None none [] (by decide)

end Spf

namespace Spf

/-- The source's transformer step agrees with the spec's description of it,
for every cardinality the scanner can produce (`-1` marks "absent"). -/
theorem handleItem_eq_spec (value : GoStr) (cardinality : Int) (reversed : Bool)
    (delim : Nat) (h : -1 ≤ cardinality) :
    handleItem value cardinality reversed delim =
      macroTransformSpec value cardinality reversed delim := by
  simp only [handleItem, macroTransformSpec]
  by_cases hb : cardinality > 0 ∨ reversed = true ∨ delim ≠ 42
  · rw [if_pos hb]
    congr 2
    split_ifs with h1 h2 <;> simp only [beq_iff_eq] at * <;> omega
  · rw [if_neg hb]
    push_neg at hb
    obtain ⟨hc, hr, hd⟩ := hb
    subst hd
    have hr0 : reversed = false := by
      cases reversed
      · rfl
      · exact absurd rfl hr
    subst hr0
    have hcc : cardinality = -1 ∨ cardinality = 0 := by omega
    rcases hcc with hcc | hcc <;> subst hcc
    · simp [List.intercalate]
      show value = List.intercalate [46] (List.splitOn 46 value)
      exact (List.intercalate_splitOn value 46).symm
    · simp [List.intercalate]


/-- C5.  Macro transformers: the source's split / reverse / clamp / join
step agrees with the spec's description of it for every cardinality the
scanner can produce, and the RFC 7208 §7.4 sample expands as stated
(sender `strong-bad@email.example.com`, domain `email.example.com`,
IP 192.0.2.3). -/
theorem macro_transformers_and_rfc_sample :
    (∀ (value : GoStr) (cardinality : Int) (reversed : Bool) (delim : Nat),
        -1 ≤ cardinality →
        handleItem value cardinality reversed delim =
          macroTransformSpec value cardinality reversed delim) ∧
    (parseMacro ctxRFC (gs "%\x7bir\x7d.%\x7bv\x7d.%\x7bl1r-\x7d.lp._spf.%\x7bd2\x7d") false).1 =
      gs "3.2.0.192.in-addr.strong.lp._spf.example.com" :=
  ⟨handleItem_eq_spec, by decide⟩

/-- C5 witness: the transformer step at a concrete input, cardinality 2,
reversed, default delimiter. -/
theorem macro_transformers_and_rfc_sample_witness :
    handleItem (gs "a.b.c") 2 true 42 = macroTransformSpec (gs "a.b.c") 2 true 42 :=
  macro_transformers_and_rfc_sample.1 (gs "a.b.c") 2 true 42 (by decide)

/-- C7.  Divergence on the ptr mechanism: with the single PTR record
`evilmatching.com.` for the client IP and target fqdn `matching.com.`, the
claim's match condition (the PTR domain equals the fqdn or ends with `.`
followed by the fqdn) holds for no returned PTR domain, yet `parsePtr`
declares a match with the qualifier result Pass: the source tests
`strings.HasSuffix(ptrDomain, fqdn)` without the leading dot. -/
theorem ptr_suffix_missing_dot :
    ptrPreprocess ctxW (domainSpec tokPtr.value ctxW.domain) = (gs "matching.com.", none) ∧
    (envPtrBug.ptr (ipString ctxW.ip)).1 = [gs "evilmatching.com."] ∧
    ¬ (gs "evilmatching.com." = gs "matching.com." ∨
        goHasSuffix (gs "evilmatching.com.") (gs "." ++ gs "matching.com.") = true) ∧
    parsePtr envPtrBug ctxW tokPtr = (true, .Pass, none) :=
  ⟨by decide, by decide, by decide, by decide⟩

end Spf
